import Mathlib

/-!
# cpu_input_boost: the boost-state machine of `drivers/cpufreq/cpu_input_boost.c`

A shallow embedding of the driver.  Every definition below is a transcription of
the C function of the same name.  Conventions:

* `atomic_t state` is a natural number read as a 32-bit word, flags are tested
  with `&&&` exactly as the C code does;
* `atomic64_t max_boost_expires` and `jiffies` are 64-bit words: the sum
  `jiffies + boost_jiffies` is taken modulo `2 ^ 64`, and `time_after` is the
  kernel's signed-difference comparison;
* `now` is the absolute instant (in jiffies since boot) at which a call runs;
  the counter the code reads is `now % 2 ^ 64`;
* a `delayed_work` is the pending fire time of its timer, `none` when idle;
* `wake_up (&b->boost_waitq)` and `update_online_cpu_policy ()` are counted;
* kernel configuration constants, the module parameters, `cpu_lp_mask` and
  `msecs_to_jiffies` are fields of `Config`.
-/

namespace CpuInputBoost

/-! ## Configuration and data model -/

/-- Kconfig constants, module parameters and the kernel helpers the file uses
but does not define. -/
structure Config where
  /-- Module parameter `input_boost_freq_lp` (initially `CONFIG_INPUT_BOOST_FREQ_LP`). -/
  input_boost_freq_lp : Nat
  /-- Module parameter `input_boost_freq_hp` (initially `CONFIG_INPUT_BOOST_FREQ_PERF`). -/
  input_boost_freq_hp : Nat
  /-- Module parameter `input_boost_duration` (initially `CONFIG_INPUT_BOOST_DURATION_MS`). -/
  input_boost_duration : Nat
  CONFIG_INPUT_BOOST_DURATION_MS : Nat
  CONFIG_WAKE_BOOST_DURATION_MS : Nat
  CONFIG_REMOVE_INPUT_BOOST_FREQ_LP : Nat
  CONFIG_REMOVE_INPUT_BOOST_FREQ_PERF : Nat
  /-- Membership test `cpumask_test_cpu (cpu, cpu_lp_mask)`. -/
  cpu_lp_mask : Nat → Bool
  /-- The kernel's milliseconds-to-jiffies conversion. -/
  msecs_to_jiffies : Nat → Nat

/-- The kernel macro `BIT(n)`. -/
def BIT (n : Nat) : Nat := 1 <<< n

def SCREEN_AWAKE : Nat := 1 <<< 0
def WAKE_BOOST : Nat := 1 <<< 2
def SCREEN_OFF : Nat := BIT 0
def INPUT_BOOST : Nat := BIT 1
def MAX_BOOST : Nat := BIT 2

/-- The fields of `struct boost_drv` that carry state, with two counters for
the calls made to the wait queue and to the cpufreq core. -/
structure boost_drv where
  /-- Pending fire time of the `input_unboost` delayed work. -/
  input_unboost : Option Nat
  /-- Pending fire time of the `max_unboost` delayed work. -/
  max_unboost : Option Nat
  max_boost_expires : Nat
  state : Nat
  /-- Number of `wake_up (&b->boost_waitq)` calls made so far. -/
  wakeups : Nat
  /-- Number of `update_online_cpu_policy ()` passes made so far. -/
  policy_updates : Nat
deriving DecidableEq, Repr

/-- The state set up by `cpu_input_boost_init`: zeroed allocation,
`max_boost_expires = 0`, `state = 0`, both works idle. -/
def boost_drv_init : boost_drv :=
  { input_unboost := none, max_unboost := none, max_boost_expires := 0,
    state := 0, wakeups := 0, policy_updates := 0 }

structure cpufreq_cpuinfo where
  max_freq : Nat
  min_freq : Nat
deriving DecidableEq, Repr

/-- The fields of `struct cpufreq_policy` the notifier reads or writes. -/
structure cpufreq_policy where
  cpuinfo : cpufreq_cpuinfo
  cpu : Nat
  min : Nat
  max : Nat
deriving DecidableEq, Repr

/-! ## Kernel primitives -/

/-- The word size of `unsigned long` / `atomic64_t` on this target. -/
def ULONG_SIZE : Nat := 2 ^ 64

/-- The value of the `jiffies` counter at absolute instant `now`. -/
def jiffies (now : Nat) : Nat := now % ULONG_SIZE

/-- The macro `time_after(a, b)`, i.e. `(long)((b) - (a)) < 0` on 64-bit words. -/
def time_after (a b : Nat) : Bool :=
  decide (2 ^ 63 ≤ (b % ULONG_SIZE + ULONG_SIZE - a % ULONG_SIZE) % ULONG_SIZE)

/-- The 32-bit `atomic_andnot (mask, v)`: `v & ~mask`. -/
def atomic_andnot (mask v : Nat) : Nat := v &&& ((2 ^ 32 - 1) ^^^ (mask % 2 ^ 32))

def wake_up (b : boost_drv) : boost_drv := { b with wakeups := b.wakeups + 1 }

/-- Timer facility: `mod_delayed_work (wq, dwork, delay)` replaces any pending
fire time of `dwork` with `now + delay`. -/
def mod_delayed_work (now delay : Nat) : Option Nat := some (now + delay)

/-- Timer facility: `cancel_delayed_work_sync (dwork)` returns whether the work
was pending and leaves it idle. -/
def cancel_delayed_work_sync (dwork : Option Nat) : Bool × Option Nat :=
  (dwork.isSome, none)

def CPUFREQ_ADJUST : Nat := 0
def FB_EARLY_EVENT_BLANK : Nat := 0x10
def FB_BLANK_UNBLANK : Nat := 0
def FB_BLANK_POWERDOWN : Nat := 4

/-! ## The driver -/

def get_boost_freq (cfg : Config) (cpu : Nat) : Nat :=
  if cfg.cpu_lp_mask cpu then cfg.input_boost_freq_lp
  else cfg.input_boost_freq_hp

def get_min_freq (cfg : Config) (cpu : Nat) : Nat :=
  if cfg.cpu_lp_mask cpu then cfg.CONFIG_REMOVE_INPUT_BOOST_FREQ_LP
  else cfg.CONFIG_REMOVE_INPUT_BOOST_FREQ_PERF

def get_boost_state (b : boost_drv) : Nat := b.state

def set_boost_bit (b : boost_drv) (state : Nat) : boost_drv :=
  { b with state := b.state ||| state }

def clear_boost_bit (b : boost_drv) (state : Nat) : boost_drv :=
  { b with state := atomic_andnot state b.state }

def update_online_cpu_policy (b : boost_drv) : boost_drv :=
  { b with policy_updates := b.policy_updates + 1 }

/-- The function `unboost_all_cpus`, with the short-circuit of `&&` kept: the second cancel
runs only when the first found nothing pending. -/
def unboost_all_cpus (b : boost_drv) : boost_drv :=
  let r1 := cancel_delayed_work_sync b.input_unboost
  let b1 := { b with input_unboost := r1.2 }
  if !r1.1 then
    let r2 := cancel_delayed_work_sync b1.max_unboost
    let b2 := { b1 with max_unboost := r2.2 }
    if !r2.1 then b2
    else update_online_cpu_policy (clear_boost_bit b2 (INPUT_BOOST ||| WAKE_BOOST ||| MAX_BOOST))
  else update_online_cpu_policy (clear_boost_bit b1 (INPUT_BOOST ||| WAKE_BOOST ||| MAX_BOOST))

def __cpu_input_boost_kick (cfg : Config) (b : boost_drv) (now : Nat) : boost_drv :=
  if get_boost_state b &&& SCREEN_OFF ≠ 0 then b
  else
    let b := set_boost_bit b INPUT_BOOST
    let b := wake_up b
    { b with input_unboost :=
        mod_delayed_work now (cfg.msecs_to_jiffies cfg.CONFIG_INPUT_BOOST_DURATION_MS) }

/-- The function `__cpu_input_boost_kick_max` run without a concurrent writer of
`max_boost_expires`: the compare-and-swap then finds the value just read and
the loop body runs once. -/
def __cpu_input_boost_kick_max (cfg : Config) (b : boost_drv) (duration_ms now : Nat) :
    boost_drv :=
  let boost_jiffies := cfg.msecs_to_jiffies duration_ms
  if get_boost_state b &&& SCREEN_OFF ≠ 0 then b
  else
    let curr_expires := b.max_boost_expires
    let new_expires := (jiffies now + boost_jiffies) % ULONG_SIZE
    if time_after curr_expires new_expires then b
    else
      let b := { b with max_boost_expires := new_expires }
      let b := set_boost_bit b MAX_BOOST
      let b := wake_up b
      { b with max_unboost := mod_delayed_work now boost_jiffies }

/-- The entry point `cpu_input_boost_kick_max` on the global instance `boost_drv_g`. -/
def cpu_input_boost_kick_max (cfg : Config) (boost_drv_g : Option boost_drv)
    (duration_ms now : Nat) : Option boost_drv :=
  match boost_drv_g with
  | none => none
  | some b => some (__cpu_input_boost_kick_max cfg b duration_ms now)

def input_unboost_worker (b : boost_drv) : boost_drv :=
  wake_up (clear_boost_bit b INPUT_BOOST)

def max_unboost_worker (b : boost_drv) : boost_drv :=
  wake_up (clear_boost_bit b MAX_BOOST)

/-- The callback `cpu_notifier_cb`: the policy after the callback (the return value is
always `NOTIFY_OK`). -/
def cpu_notifier_cb (cfg : Config) (b : boost_drv) (action : Nat)
    (policy : cpufreq_policy) : cpufreq_policy :=
  if action ≠ CPUFREQ_ADJUST then policy
  else
    let state := get_boost_state b
    if state &&& SCREEN_OFF ≠ 0 then { policy with min := policy.cpuinfo.min_freq }
    else if state &&& MAX_BOOST ≠ 0 then { policy with min := policy.max }
    else if state &&& INPUT_BOOST ≠ 0 then
      let boost_freq := get_boost_freq cfg policy.cpu
      { policy with min := Nat.min policy.max boost_freq }
    else
      let min_freq := get_min_freq cfg policy.cpu
      { policy with min := Nat.max policy.cpuinfo.min_freq min_freq }

/-- The callback `fb_notifier_cb`: `blank` is the value `*evdata->data`. -/
def fb_notifier_cb (cfg : Config) (b : boost_drv) (action blank now : Nat) : boost_drv :=
  if action ≠ FB_EARLY_EVENT_BLANK then b
  else if blank = FB_BLANK_UNBLANK then
    let b := set_boost_bit b SCREEN_AWAKE
    __cpu_input_boost_kick_max cfg b cfg.CONFIG_WAKE_BOOST_DURATION_MS now
  else
    let b := set_boost_bit b SCREEN_OFF
    wake_up b

/-- The handler `cpu_input_boost_input_event`: every input event kicks. -/
def cpu_input_boost_input_event (cfg : Config) (b : boost_drv) (now : Nat) : boost_drv :=
  __cpu_input_boost_kick cfg b now

/-! ## The compare-and-swap loop, one atomic action at a time -/

/-- Program points of one call of `__cpu_input_boost_kick_max`, one per access
to shared state. -/
inductive kick_max_pc where
  /-- Before the `SCREEN_OFF` test. -/
  | entry
  /-- Top of the `do` body, before `atomic64_read`. -/
  | loop_read
  /-- Before `atomic64_cmpxchg`, holding the two locals. -/
  | loop_cmpxchg (curr_expires new_expires : Nat)
  /-- Before `set_boost_bit (b, MAX_BOOST)`. -/
  | set_bit
  /-- Before `wake_up`. -/
  | wake
  /-- Before `mod_delayed_work`. -/
  | rearm
  /-- The call has returned. -/
  | returned
deriving DecidableEq, Repr

/-- One atomic action of a call `__cpu_input_boost_kick_max (b, duration_ms)`
standing at `pc`, on the shared instance `b`. -/
def kick_max_step (cfg : Config) (now duration_ms : Nat) (pc : kick_max_pc) (b : boost_drv) :
    kick_max_pc × boost_drv :=
  let boost_jiffies := cfg.msecs_to_jiffies duration_ms
  match pc with
  | .entry =>
    if get_boost_state b &&& SCREEN_OFF ≠ 0 then (.returned, b) else (.loop_read, b)
  | .loop_read =>
    let curr_expires := b.max_boost_expires
    let new_expires := (jiffies now + boost_jiffies) % ULONG_SIZE
    if time_after curr_expires new_expires then (.returned, b)
    else (.loop_cmpxchg curr_expires new_expires, b)
  | .loop_cmpxchg curr_expires new_expires =>
    if b.max_boost_expires = curr_expires then
      (.set_bit, { b with max_boost_expires := new_expires })
    else (.loop_read, b)
  | .set_bit => (.wake, set_boost_bit b MAX_BOOST)
  | .wake => (.rearm, wake_up b)
  | .rearm => (.returned, { b with max_unboost := mod_delayed_work now boost_jiffies })
  | .returned => (.returned, b)

/-- Two calls of `__cpu_input_boost_kick_max` in flight on one instance. -/
structure kick_max_race where
  pc1 : kick_max_pc
  pc2 : kick_max_pc
  drv : boost_drv
deriving DecidableEq, Repr

/-- The scheduler lets the first call (`true`) or the second (`false`) perform
its next atomic action. -/
def race_step (cfg : Config) (now d1 d2 : Nat) (r : kick_max_race) (who : Bool) :
    kick_max_race :=
  if who then
    let q := kick_max_step cfg now d1 r.pc1 r.drv
    { r with pc1 := q.1, drv := q.2 }
  else
    let q := kick_max_step cfg now d2 r.pc2 r.drv
    { r with pc2 := q.1, drv := q.2 }

def race_run (cfg : Config) (now d1 d2 : Nat) (r : kick_max_race) (sched : List Bool) :
    kick_max_race :=
  sched.foldl (race_step cfg now d1 d2) r

/-- Both calls at their entry on instance `b`. -/
def race_start (b : boost_drv) : kick_max_race :=
  { pc1 := .entry, pc2 := .entry, drv := b }

/-- The call is past its loop: it makes no further access to the deadline. -/
def pc_post : kick_max_pc → Bool
  | .set_bit => true
  | .wake => true
  | .rearm => true
  | .returned => true
  | .entry => false
  | .loop_read => false
  | .loop_cmpxchg _ _ => false

/-- The value the call read is no longer the stored deadline: its
compare-and-swap will fail. -/
def pc_stale : kick_max_pc → Nat → Bool
  | .loop_cmpxchg curr_expires _, deadline => decide (curr_expires ≠ deadline)
  | .entry, _ => false
  | .loop_read, _ => false
  | .set_bit, _ => false
  | .wake, _ => false
  | .rearm, _ => false
  | .returned, _ => false

/-- Atomic actions left to a call that meets no further contention. -/
def pc_base : kick_max_pc → Nat
  | .entry => 6
  | .loop_read => 5
  | .loop_cmpxchg _ _ => 4
  | .set_bit => 3
  | .wake => 2
  | .rearm => 1
  | .returned => 0

/-- A bound on the atomic actions left to a call, given the program point of
the other call: one retry of the loop is counted while the other call may still
write the deadline, or has already invalidated the value read. -/
def pc_potential (pc other : kick_max_pc) (deadline : Nat) : Nat :=
  pc_base pc + if !pc_post pc && (!pc_post other || pc_stale pc deadline) then 2 else 0

/-- What a call with target deadline `target` knows at each program point. -/
def pc_inv (target : Nat) (pc : kick_max_pc) (deadline : Nat) : Prop :=
  match pc with
  | .entry => True
  | .loop_read => True
  | .loop_cmpxchg curr_expires new_expires => new_expires = target ∧ curr_expires ≤ target
  | .set_bit => target ≤ deadline
  | .wake => target ≤ deadline
  | .rearm => target ≤ deadline
  | .returned => target ≤ deadline

/-! ## Events over time -/

/-- Timer expiry with no call in between: every delayed work whose fire time has
been reached becomes idle and runs its worker to the end. -/
def fire_timers (b : boost_drv) (now : Nat) : boost_drv :=
  let b :=
    match b.input_unboost with
    | some t => if t ≤ now then input_unboost_worker { b with input_unboost := none } else b
    | none => b
  match b.max_unboost with
  | some t => if t ≤ now then max_unboost_worker { b with max_unboost := none } else b
  | none => b

/-- The calls the event sources make into the driver. -/
inductive Event where
  /-- An input event: `cpu_input_boost_input_event`. -/
  | kick
  /-- The exported `cpu_input_boost_kick_max (duration_ms)`. -/
  | kick_max (duration_ms : Nat)
  /-- A framebuffer notification with its action and blank value. -/
  | fb (action blank : Nat)
deriving DecidableEq, Repr

def handle_event (cfg : Config) (b : boost_drv) (now : Nat) : Event → boost_drv
  | .kick => cpu_input_boost_input_event cfg b now
  | .kick_max duration_ms => __cpu_input_boost_kick_max cfg b duration_ms now
  | .fb action blank => fb_notifier_cb cfg b action blank now

def ENOMEM : Int := 12

/-- What the kernel answers to each step of `cpu_input_boost_init`. -/
structure init_env where
  /-- Whether `kzalloc` returned a non-null pointer. -/
  kzalloc : Bool
  cpufreq_register_notifier : Int
  input_register_handler : Int
  fb_register_client : Int
  /-- The value `PTR_ERR (boost_thread)` when `IS_ERR (boost_thread)`, else `none`. -/
  kthread_run_perf_critical : Option Int
deriving DecidableEq, Repr

/-- The resources `cpu_input_boost_init` acquires, in acquisition order. -/
inductive init_resource where
  | state_alloc
  | cpu_notif
  | input_handler
  | fb_notif
  | boost_thread
deriving DecidableEq, Repr

inductive init_call where
  | acquire (r : init_resource)
  | release (r : init_resource)
deriving DecidableEq, Repr

structure init_result where
  /-- The value returned by `cpu_input_boost_init`. -/
  ret : Int
  /-- The global `boost_drv_g` afterwards. -/
  boost_drv_g : Option boost_drv
  /-- Successful acquisitions and the releases, in program order. -/
  calls : List init_call
deriving DecidableEq, Repr

/-- The function `cpu_input_boost_init`; the labels of its unwind chain fall
through from the one jumped to. The local `ret` is threaded as in the C code. -/
def cpu_input_boost_init (env : init_env) : init_result :=
  let free_b (ret : Int) (calls : List init_call) : init_result :=
    { ret := ret, boost_drv_g := none, calls := calls ++ [.release .state_alloc] }
  let unregister_cpu_notif (ret : Int) (calls : List init_call) : init_result :=
    free_b ret (calls ++ [.release .cpu_notif])
  let unregister_handler (ret : Int) (calls : List init_call) : init_result :=
    unregister_cpu_notif ret (calls ++ [.release .input_handler])
  let unregister_drm_notif (ret : Int) (calls : List init_call) : init_result :=
    unregister_handler ret (calls ++ [.release .fb_notif])
  if !env.kzalloc then { ret := -ENOMEM, boost_drv_g := none, calls := [] }
  else
    let b := boost_drv_init
    let calls := [init_call.acquire .state_alloc]
    let ret := env.cpufreq_register_notifier
    if ret ≠ 0 then free_b ret calls
    else
      let calls := calls ++ [.acquire .cpu_notif]
      let ret := env.input_register_handler
      if ret ≠ 0 then unregister_cpu_notif ret calls
      else
        let calls := calls ++ [.acquire .input_handler]
        let ret := env.fb_register_client
        if ret ≠ 0 then unregister_handler ret calls
        else
          let calls := calls ++ [.acquire .fb_notif]
          match env.kthread_run_perf_critical with
          | some _ => unregister_drm_notif ret calls
          | none =>
            { ret := 0, boost_drv_g := some b, calls := calls ++ [.acquire .boost_thread] }

/-! ## The policy floor as the specification words it -/

/-- The two classes of the static core partition. -/
inductive CoreClass where
  | LowPower
  | Performance
deriving DecidableEq, Repr

def core_class (cfg : Config) (cpu : Nat) : CoreClass :=
  if cfg.cpu_lp_mask cpu then .LowPower else .Performance

def class_boost_freq (cfg : Config) : CoreClass → Nat
  | .LowPower => cfg.input_boost_freq_lp
  | .Performance => cfg.input_boost_freq_hp

def class_removed_boost_min (cfg : Config) : CoreClass → Nat
  | .LowPower => cfg.CONFIG_REMOVE_INPUT_BOOST_FREQ_LP
  | .Performance => cfg.CONFIG_REMOVE_INPUT_BOOST_FREQ_PERF

/-- Membership of a flag, given by its mask, in a flag-set value. -/
def flag_set (state mask : Nat) : Prop := state &&& mask ≠ 0

instance (state mask : Nat) : Decidable (flag_set state mask) := by
  unfold flag_set; infer_instance

/-- The invariant of two racing calls with targets `t1` and `t2` while the
deadline moves inside the window `[lo, hi]`. -/
def race_inv (lo hi t1 t2 : Nat) (r : kick_max_race) : Prop :=
  ¬ flag_set (get_boost_state r.drv) SCREEN_OFF ∧
    lo ≤ r.drv.max_boost_expires ∧ r.drv.max_boost_expires ≤ hi ∧
    pc_inv t1 r.pc1 r.drv.max_boost_expires ∧ pc_inv t2 r.pc2 r.drv.max_boost_expires ∧
    (pc_stale r.pc1 r.drv.max_boost_expires = true → pc_post r.pc2 = true) ∧
    (pc_stale r.pc2 r.drv.max_boost_expires = true → pc_post r.pc1 = true)

/-- The four branches of the priority list. -/
inductive FloorBranch where
  | screen_off
  | max_boost
  | input_boost
  | rest
deriving DecidableEq, Repr

/-- When a branch of the priority list applies to a flag-set value. -/
def branch_applies (state : Nat) : FloorBranch → Prop
  | .screen_off => flag_set state SCREEN_OFF
  | .max_boost => ¬ flag_set state SCREEN_OFF ∧ flag_set state MAX_BOOST
  | .input_boost =>
    ¬ flag_set state SCREEN_OFF ∧ ¬ flag_set state MAX_BOOST ∧ flag_set state INPUT_BOOST
  | .rest =>
    ¬ flag_set state SCREEN_OFF ∧ ¬ flag_set state MAX_BOOST ∧ ¬ flag_set state INPUT_BOOST

/-- The floor each branch of the priority list prescribes. -/
def branch_floor (cfg : Config) (policy : cpufreq_policy) : FloorBranch → Nat
  | .screen_off => policy.cpuinfo.min_freq
  | .max_boost => policy.max
  | .input_boost => min policy.max (class_boost_freq cfg (core_class cfg policy.cpu))
  | .rest => max policy.cpuinfo.min_freq (class_removed_boost_min cfg (core_class cfg policy.cpu))

/-- The specification's four-branch priority definition of the floor. -/
def policy_floor_spec (cfg : Config) (state : Nat) (policy : cpufreq_policy) : Nat :=
  if flag_set state SCREEN_OFF then branch_floor cfg policy .screen_off
  else if flag_set state MAX_BOOST then branch_floor cfg policy .max_boost
  else if flag_set state INPUT_BOOST then branch_floor cfg policy .input_boost
  else branch_floor cfg policy .rest

/-- Example configuration: one jiffy per millisecond, cores 0 to 3 low-power. -/
def example_cfg : Config :=
  { input_boost_freq_lp := 1401600, input_boost_freq_hp := 1800000,
    input_boost_duration := 1000, CONFIG_INPUT_BOOST_DURATION_MS := 64,
    CONFIG_WAKE_BOOST_DURATION_MS := 1000,
    CONFIG_REMOVE_INPUT_BOOST_FREQ_LP := 652800,
    CONFIG_REMOVE_INPUT_BOOST_FREQ_PERF := 652800,
    cpu_lp_mask := fun cpu => decide (cpu < 4),
    msecs_to_jiffies := fun m => m }

/-- Example schedule: the two calls alternate, eight actions each. -/
def example_schedule : List Bool :=
  [true, false, true, false, true, false, true, false,
   true, false, true, false, true, false, true, false]

/-- Example state: screen on, an input boost and a max boost both in flight. -/
def example_boosted : boost_drv :=
  { input_unboost := some 64, max_unboost := some 1000, max_boost_expires := 1000,
    state := INPUT_BOOST ||| MAX_BOOST, wakeups := 2, policy_updates := 0 }

/-- Example state: the display-off bit set, nothing else. -/
def example_screen_off : boost_drv :=
  { boost_drv_init with state := SCREEN_OFF }

/-- Example answers of the kernel: every step succeeds but the thread start. -/
def example_thread_failure : init_env :=
  { kzalloc := true, cpufreq_register_notifier := 0, input_register_handler := 0,
    fb_register_client := 0, kthread_run_perf_critical := some (-ENOMEM) }

/-! ## A kick racing the expiry of the input work, one atomic action at a time -/

/-- The input half of `fire_timers`. -/
def fire_input_timer (b : boost_drv) (now : Nat) : boost_drv :=
  match b.input_unboost with
  | some t => if t ≤ now then input_unboost_worker { b with input_unboost := none } else b
  | none => b

/-- The max half of `fire_timers`. -/
def fire_max_timer (b : boost_drv) (now : Nat) : boost_drv :=
  match b.max_unboost with
  | some t => if t ≤ now then max_unboost_worker { b with max_unboost := none } else b
  | none => b

/-- What can happen to the running controller: a call from an event source at
some instant, or the expiry of one of the two delayed works. -/
inductive ctl_event where
  /-- A call from an event source at instant `now`. -/
  | call (now : Nat) (e : Event)
  /-- The `input_unboost` work runs (only when it is pending). -/
  | input_expiry
  /-- The `max_unboost` work runs (only when it is pending). -/
  | max_expiry
deriving DecidableEq, Repr

def ctl_step (cfg : Config) (b : boost_drv) : ctl_event → boost_drv
  | .call now e => handle_event cfg b now e
  | .input_expiry =>
    match b.input_unboost with
    | some _ => input_unboost_worker { b with input_unboost := none }
    | none => b
  | .max_expiry =>
    match b.max_unboost with
    | some _ => max_unboost_worker { b with max_unboost := none }
    | none => b

def ctl_run (cfg : Config) (b : boost_drv) (evs : List ctl_event) : boost_drv :=
  evs.foldl (ctl_step cfg) b

/-! ## The notification worker -/

/-- The locals of `cpu_boost_thread`, with the calls it has made to
`cpufreq_update_policy`, one cpu number per call, in order. -/
structure boost_thread where
  old_state : Nat
  policy_calls : List Nat
deriving DecidableEq, Repr

/-- The worker as `cpu_boost_thread` starts it: `old_state = 0`. -/
def boost_thread_init : boost_thread :=
  { old_state := 0, policy_calls := [] }

/-- The loop of `update_online_cpu_policy`: one `cpufreq_update_policy (cpu)` for
each online cpu. -/
def update_online_cpu_policy_calls (online : List Nat) (calls : List Nat) : List Nat :=
  calls ++ online

/-- The macro `wait_event_interruptible` on the condition
`(curr_state = get_boost_state (b)) != old_state || kthread_should_stop ()`:
the condition is evaluated once per observation, a pair of the flag word and
the stop request seen at that evaluation; the result is the `curr_state` of the
first evaluation that holds, `none` while the worker stays blocked. -/
def wait_event_interruptible (old_state : Nat) : List (Nat × Bool) → Option Nat
  | [] => none
  | (curr_state, should_stop) :: rest =>
    if curr_state ≠ old_state ∨ should_stop = true then some curr_state
    else wait_event_interruptible old_state rest

/-- One pass of the body of the `while` loop of `cpu_boost_thread`; `none` when
the wait has not returned. -/
def cpu_boost_thread_pass (online : List Nat) (th : boost_thread)
    (observed : List (Nat × Bool)) : Option boost_thread :=
  match wait_event_interruptible th.old_state observed with
  | none => none
  | some curr_state =>
    some { old_state := curr_state,
           policy_calls := update_online_cpu_policy_calls online th.policy_calls }

/-- The function `cpu_boost_thread`: each pass comes with the answer of
`kthread_should_stop ()` at the loop head and what the wait observes. -/
def cpu_boost_thread (online : List Nat) (th : boost_thread) :
    List (Bool × List (Nat × Bool)) → boost_thread
  | [] => th
  | (should_stop, observed) :: rest =>
    if should_stop then th
    else
      match cpu_boost_thread_pass online th observed with
      | none => th
      | some th' => cpu_boost_thread online th' rest

/-! ## Initialization steps as the specification words them -/

/-- The steps of initialization, in acquisition order. -/
def init_order : List init_resource :=
  [.state_alloc, .cpu_notif, .input_handler, .fb_notif, .boost_thread]

/-- The index in `init_order` of the first step that fails, if any. -/
def init_failing_step (env : init_env) : Option Nat :=
  if env.kzalloc = false then some 0
  else if env.cpufreq_register_notifier ≠ 0 then some 1
  else if env.input_register_handler ≠ 0 then some 2
  else if env.fb_register_client ≠ 0 then some 3
  else if env.kthread_run_perf_critical.isSome then some 4
  else none

/-- The resources a call log acquires, in order. -/
def acquired : List init_call → List init_resource
  | [] => []
  | .acquire r :: rest => r :: acquired rest
  | .release _ :: rest => acquired rest

/-- The resources a call log releases, in order. -/
def released : List init_call → List init_resource
  | [] => []
  | .acquire _ :: rest => released rest
  | .release r :: rest => r :: released rest

/-- Example worker input: the flag word is seen at 0 twice, then at 2 and 6. -/
def example_observed : List (Nat × Bool) :=
  [(0, false), (0, false), (2, false), (6, false)]

/-- Example policy request: a performance core (cpu 5), hardware range
300000 to 2400000, proposed maximum 2400000. -/
def example_policy : cpufreq_policy :=
  { cpuinfo := { max_freq := 2400000, min_freq := 300000 }, cpu := 5,
    min := 300000, max := 2400000 }

/-! ## Shared lemmas -/

theorem flag_masks :
    SCREEN_OFF = 2 ^ 0 ∧ INPUT_BOOST = 2 ^ 1 ∧ MAX_BOOST = 2 ^ 2 ∧
      SCREEN_AWAKE = 2 ^ 0 ∧ WAKE_BOOST = 2 ^ 2 := by
  refine ⟨?_, ?_, ?_, ?_, ?_⟩ <;> rfl

/-- Testing a word against a one-bit mask reads that bit. -/
theorem and_two_pow_ne_zero (s k : Nat) : s &&& 2 ^ k ≠ 0 ↔ s.testBit k = true := by
  rw [Nat.and_two_pow]
  cases s.testBit k <;> simp

theorem flag_set_two_pow (s k : Nat) : flag_set s (2 ^ k) ↔ s.testBit k = true :=
  and_two_pow_ne_zero s k

/-! ## C1: the policy floor -/

/-- C1. On a `CPUFREQ_ADJUST` query the floor written to `policy->min` is the
four-branch priority definition, for every flag set, core and policy request:
exactly one branch applies, the floor is the one that branch prescribes, and
a set `ScreenOff` gives the hardware minimum whatever the other flags are. -/
theorem cpu_notifier_cb_floor (cfg : Config) (b : boost_drv) (policy : cpufreq_policy) :
    (cpu_notifier_cb cfg b CPUFREQ_ADJUST policy).min
        = policy_floor_spec cfg (get_boost_state b) policy ∧
      (∃! br : FloorBranch, branch_applies (get_boost_state b) br) ∧
      (∀ br : FloorBranch, branch_applies (get_boost_state b) br →
        (cpu_notifier_cb cfg b CPUFREQ_ADJUST policy).min = branch_floor cfg policy br) ∧
      (flag_set (get_boost_state b) SCREEN_OFF →
        (cpu_notifier_cb cfg b CPUFREQ_ADJUST policy).min = policy.cpuinfo.min_freq) := by
  have hfloor : (cpu_notifier_cb cfg b CPUFREQ_ADJUST policy).min
      = policy_floor_spec cfg (get_boost_state b) policy := by
    unfold cpu_notifier_cb policy_floor_spec flag_set branch_floor class_boost_freq
      class_removed_boost_min core_class get_boost_freq get_min_freq
    by_cases h0 : get_boost_state b &&& SCREEN_OFF ≠ 0
    · simp [h0]
    · by_cases h2 : get_boost_state b &&& MAX_BOOST ≠ 0
      · simp [h0, h2]
      · by_cases h1 : get_boost_state b &&& INPUT_BOOST ≠ 0
        · cases hc : cfg.cpu_lp_mask policy.cpu <;> simp [h0, h2, h1, hc]
        · cases hc : cfg.cpu_lp_mask policy.cpu <;> simp [h0, h2, h1, hc]
  have hval : ∀ br : FloorBranch, branch_applies (get_boost_state b) br →
      policy_floor_spec cfg (get_boost_state b) policy = branch_floor cfg policy br := by
    intro br hbr
    cases br <;> simp only [branch_applies] at hbr <;> simp [policy_floor_spec, hbr]
  refine ⟨hfloor, ?_, fun br hbr => hfloor.trans (hval br hbr), ?_⟩
  · by_cases h0 : flag_set (get_boost_state b) SCREEN_OFF
    · refine ⟨.screen_off, h0, ?_⟩
      intro br hbr
      cases br <;> simp_all [branch_applies]
    · by_cases h2 : flag_set (get_boost_state b) MAX_BOOST
      · refine ⟨.max_boost, ⟨h0, h2⟩, ?_⟩
        intro br hbr
        cases br <;> simp_all [branch_applies]
      · by_cases h1 : flag_set (get_boost_state b) INPUT_BOOST
        · refine ⟨.input_boost, ⟨h0, h2, h1⟩, ?_⟩
          intro br hbr
          cases br <;> simp_all [branch_applies]
        · refine ⟨.rest, ⟨h0, h2, h1⟩, ?_⟩
          intro br hbr
          cases br <;> simp_all [branch_applies]
  · intro h0
    rw [hfloor]
    simp [policy_floor_spec, h0, branch_floor]

/-! ## C2, C3, C4: display events -/

/-- Any blank value other than `FB_BLANK_UNBLANK` only sets bit 0 and wakes the
worker. -/
theorem fb_blank_eq (cfg : Config) (b : boost_drv) (blank now : Nat) :
    fb_notifier_cb cfg b FB_EARLY_EVENT_BLANK (blank + 1) now
      = wake_up (set_boost_bit b SCREEN_OFF) := by
  simp [fb_notifier_cb, FB_BLANK_UNBLANK]

/-- After `set_boost_bit (b, SCREEN_AWAKE)` the `SCREEN_OFF` test succeeds. -/
theorem screen_awake_sets_screen_off (b : boost_drv) :
    get_boost_state (set_boost_bit b SCREEN_AWAKE) &&& SCREEN_OFF ≠ 0 := by
  have h : SCREEN_OFF = 2 ^ 0 := rfl
  have h' : SCREEN_AWAKE = 2 ^ 0 := rfl
  rw [h, and_two_pow_ne_zero]
  simp [get_boost_state, set_boost_bit, h', Nat.testBit_two_pow]

/-- The unblank branch reduces to setting bit 0: the wake boost that follows
finds `SCREEN_OFF` set and returns at once. -/
theorem fb_unblank_eq (cfg : Config) (b : boost_drv) (now : Nat) :
    fb_notifier_cb cfg b FB_EARLY_EVENT_BLANK FB_BLANK_UNBLANK now
      = set_boost_bit b SCREEN_AWAKE := by
  have h := screen_awake_sets_screen_off b
  simp [fb_notifier_cb, __cpu_input_boost_kick_max, h]

/-- C2 (the code departs from it). The display-off event sets bit 0 and wakes
the worker, nothing more: `unboost_all_cpus` is not called, so from a state with
both boosts in flight `InputBoost` and `MaxBoost` stay set and both delayed works
stay pending. -/
theorem fb_blank_keeps_boosts :
    (∀ (cfg : Config) (b : boost_drv) (blank now : Nat),
      fb_notifier_cb cfg b FB_EARLY_EVENT_BLANK (blank + 1) now
        = { b with state := b.state ||| SCREEN_OFF, wakeups := b.wakeups + 1 }) ∧
      (let b := fb_notifier_cb example_cfg example_boosted FB_EARLY_EVENT_BLANK
          FB_BLANK_POWERDOWN 10
       flag_set b.state SCREEN_OFF ∧ flag_set b.state INPUT_BOOST ∧
         flag_set b.state MAX_BOOST ∧ b.input_unboost = some 64 ∧
         b.max_unboost = some 1000) := by
  refine ⟨fun cfg b blank now => ?_, by decide⟩
  rw [fb_blank_eq]; rfl

/-- C3 (the code departs from it). `SCREEN_AWAKE` and `SCREEN_OFF` are
the same bit, so after the display-on event `ScreenOff` is set, in every
state; from the initial state the flag word becomes 1. -/
theorem fb_unblank_sets_screen_off :
    (∀ (cfg : Config) (b : boost_drv) (now : Nat),
      flag_set (fb_notifier_cb cfg b FB_EARLY_EVENT_BLANK FB_BLANK_UNBLANK now).state
        SCREEN_OFF) ∧
      (fb_notifier_cb example_cfg boost_drv_init FB_EARLY_EVENT_BLANK FB_BLANK_UNBLANK
        1000).state = 1 ∧ SCREEN_AWAKE = SCREEN_OFF := by
  refine ⟨fun cfg b now => ?_, by decide, rfl⟩
  rw [fb_unblank_eq]
  exact screen_awake_sets_screen_off b

/-- C4 (the code departs from it). The display-on event never starts
the wake boost: the deadline and the max delayed work are left as they were and
the flag word only gains bit 0; from the initial state `MaxBoost` is clear, no
timer is pending and the deadline is still 0. -/
theorem fb_unblank_no_wake_boost :
    (∀ (cfg : Config) (b : boost_drv) (now : Nat),
      fb_notifier_cb cfg b FB_EARLY_EVENT_BLANK FB_BLANK_UNBLANK now
        = { b with state := b.state ||| SCREEN_AWAKE }) ∧
      (let b := fb_notifier_cb example_cfg boost_drv_init FB_EARLY_EVENT_BLANK
          FB_BLANK_UNBLANK 1000
       ¬ flag_set b.state MAX_BOOST ∧ b.max_unboost = none ∧ b.max_boost_expires = 0 ∧
         ¬ (1000 + example_cfg.msecs_to_jiffies example_cfg.CONFIG_WAKE_BOOST_DURATION_MS
              ≤ b.max_boost_expires)) := by
  refine ⟨fun cfg b now => ?_, by decide⟩
  rw [fb_unblank_eq]; rfl

/-! ## C7: no boost while the screen is off -/

/-- C7. With `ScreenOff` set, `kick` and `kickMax d` return the instance
unchanged for every `d`: flag word, deadline, both delayed works and the wake-up
count are as before, also through the input handler and the exported entry. -/
theorem kick_noop_when_screen_off (cfg : Config) (b : boost_drv) (duration_ms now : Nat)
    (h : flag_set (get_boost_state b) SCREEN_OFF) :
    __cpu_input_boost_kick cfg b now = b ∧
      __cpu_input_boost_kick_max cfg b duration_ms now = b ∧
      cpu_input_boost_input_event cfg b now = b ∧
      cpu_input_boost_kick_max cfg (some b) duration_ms now = some b := by
  unfold flag_set at h
  simp [__cpu_input_boost_kick, __cpu_input_boost_kick_max, cpu_input_boost_input_event,
    cpu_input_boost_kick_max, h]

theorem kick_noop_when_screen_off_witness :
    flag_set (get_boost_state example_screen_off) SCREEN_OFF ∧
      (__cpu_input_boost_kick example_cfg example_screen_off 5 = example_screen_off ∧
        __cpu_input_boost_kick_max example_cfg example_screen_off 500 5
          = example_screen_off ∧
        cpu_input_boost_input_event example_cfg example_screen_off 5
          = example_screen_off ∧
        cpu_input_boost_kick_max example_cfg (some example_screen_off) 500 5
          = some example_screen_off) :=
  ⟨by decide, kick_noop_when_screen_off example_cfg example_screen_off 500 5 (by decide)⟩

/-! ## C9: the duration tunable -/

/-- C9 (the code departs from it). The kick never reads the module
parameter `input_boost_duration`: whatever value `v` it holds the result is the
same, and the input delayed work is armed `CONFIG_INPUT_BOOST_DURATION_MS` after
the kick. With the parameter at 1000 and the constant at 64 the work fires at
64, not at 1000. -/
theorem kick_ignores_input_boost_duration :
    (∀ (cfg : Config) (v : Nat) (b : boost_drv) (now : Nat),
      __cpu_input_boost_kick { cfg with input_boost_duration := v } b now
        = __cpu_input_boost_kick cfg b now) ∧
      example_cfg.input_boost_duration = 1000 ∧
      (__cpu_input_boost_kick example_cfg boost_drv_init 0).input_unboost = some 64 := by
  refine ⟨fun cfg v b now => rfl, rfl, by decide⟩

/-! ## C10: the return value of initialization -/

/-- C10 (the code departs from it). When only the start of the worker
thread fails, `ret` still holds the 0 of the display-notifier registration:
initialization unwinds everything and returns 0, with the global instance unset. -/
theorem init_thread_failure_returns_zero :
    (∀ err : Int,
      (cpu_input_boost_init { example_thread_failure with
          kthread_run_perf_critical := some err }).ret = 0) ∧
      (cpu_input_boost_init example_thread_failure).ret = 0 ∧
      (cpu_input_boost_init example_thread_failure).boost_drv_g = none := by
  refine ⟨fun err => rfl, by decide, by decide⟩

theorem time_after_eq (a b : Nat) (ha : a < 2 ^ 64) (hb : b < 2 ^ 64)
    (h1 : a < b + 2 ^ 63) (h2 : b < a + 2 ^ 63) :
    time_after a b = decide (b < a) := by
  unfold time_after ULONG_SIZE
  norm_num at *
  omega

theorem kick_max_deadline_eq (cfg : Config) (b : boost_drv) (duration_ms now : Nat)
    (hoff : ¬ flag_set (get_boost_state b) SCREEN_OFF)
    (hcur : b.max_boost_expires < 2 ^ 64)
    (hnew : now + cfg.msecs_to_jiffies duration_ms < 2 ^ 64)
    (h1 : b.max_boost_expires < now + cfg.msecs_to_jiffies duration_ms + 2 ^ 63)
    (h2 : now + cfg.msecs_to_jiffies duration_ms < b.max_boost_expires + 2 ^ 63) :
    (__cpu_input_boost_kick_max cfg b duration_ms now).max_boost_expires
      = max b.max_boost_expires (now + cfg.msecs_to_jiffies duration_ms) := by
  have hj : (jiffies now + cfg.msecs_to_jiffies duration_ms) % ULONG_SIZE
      = now + cfg.msecs_to_jiffies duration_ms := by
    unfold jiffies ULONG_SIZE
    omega
  unfold flag_set at hoff
  unfold __cpu_input_boost_kick_max
  simp only [hoff, if_false, hj]
  rw [time_after_eq _ _ hcur hnew h1 h2]
  by_cases hlt : now + cfg.msecs_to_jiffies duration_ms < b.max_boost_expires
  · simp [hlt]; omega
  · simp [hlt, set_boost_bit, wake_up]; omega

/-- Setting a one-bit mask sets that bit and leaves every other bit alone. -/
theorem flag_set_or_two_pow (s j k : Nat) :
    flag_set (s ||| 2 ^ j) (2 ^ k) ↔ flag_set s (2 ^ k) ∨ j = k := by
  simp [flag_set_two_pow, Nat.testBit_two_pow]

/-- Clearing a one-bit mask clears that bit and leaves every other bit of a
32-bit word alone. -/
theorem flag_set_andnot_two_pow (s j k : Nat) (hk : k < 32) :
    flag_set (atomic_andnot (2 ^ j) s) (2 ^ k) ↔ flag_set s (2 ^ k) ∧ j ≠ k := by
  simp only [flag_set_two_pow, atomic_andnot, Nat.testBit_and, Nat.testBit_xor,
    Nat.testBit_two_pow_sub_one, Nat.testBit_mod_two_pow, Nat.testBit_two_pow]
  simp [hk]

theorem kick_max_keeps_screen_on (cfg : Config) (b : boost_drv) (duration_ms now : Nat)
    (hoff : ¬ flag_set (get_boost_state b) SCREEN_OFF) :
    ¬ flag_set (get_boost_state (__cpu_input_boost_kick_max cfg b duration_ms now))
      SCREEN_OFF := by
  have e0 : SCREEN_OFF = 2 ^ 0 := rfl
  have e2 : MAX_BOOST = 2 ^ 2 := rfl
  unfold __cpu_input_boost_kick_max
  dsimp only
  split_ifs
  · exact hoff
  · exact hoff
  · simp only [get_boost_state, set_boost_bit, wake_up] at hoff ⊢
    rw [e0, e2, flag_set_or_two_pow]
    rw [e0] at hoff
    rintro (h | h)
    · exact hoff h
    · exact absurd h (by decide)

/-- C5. Under exact jiffies arithmetic (the old deadline and `now + d` are 64-bit
values within half the counter range of each other) `kickMax d` at `now` never
moves `maxBoostDeadline` back, and with `ScreenOff` unset the new deadline is
`max (previous deadline) (now + d)`. Deadlines so compose as absolute times:
with an exact millisecond conversion, `kickMax 100` at `t0` then `kickMax 500`
at `t0 + 40 ms` leave the deadline at `t0 + 540 ms`. -/
theorem kick_max_deadline_monotone (cfg : Config) (b : boost_drv) (duration_ms now : Nat)
    (hcur : b.max_boost_expires < 2 ^ 64)
    (hnew : now + cfg.msecs_to_jiffies duration_ms < 2 ^ 64)
    (h1 : b.max_boost_expires < now + cfg.msecs_to_jiffies duration_ms + 2 ^ 63)
    (h2 : now + cfg.msecs_to_jiffies duration_ms < b.max_boost_expires + 2 ^ 63) :
    b.max_boost_expires
        ≤ (__cpu_input_boost_kick_max cfg b duration_ms now).max_boost_expires ∧
      (¬ flag_set (get_boost_state b) SCREEN_OFF →
        (__cpu_input_boost_kick_max cfg b duration_ms now).max_boost_expires
          = max b.max_boost_expires (now + cfg.msecs_to_jiffies duration_ms)) ∧
      (∀ t0 : Nat,
        (∀ x y, cfg.msecs_to_jiffies (x + y)
          = cfg.msecs_to_jiffies x + cfg.msecs_to_jiffies y) →
        ¬ flag_set (get_boost_state b) SCREEN_OFF →
        b.max_boost_expires ≤ t0 + cfg.msecs_to_jiffies 540 →
        t0 + cfg.msecs_to_jiffies 540 < 2 ^ 63 →
        (__cpu_input_boost_kick_max cfg (__cpu_input_boost_kick_max cfg b 100 t0) 500
            (t0 + cfg.msecs_to_jiffies 40)).max_boost_expires
          = t0 + cfg.msecs_to_jiffies 540) := by
  have hmax := kick_max_deadline_eq cfg b duration_ms now
  refine ⟨?_, fun hoff => hmax hoff hcur hnew h1 h2, ?_⟩
  · by_cases hoff : flag_set (get_boost_state b) SCREEN_OFF
    · unfold flag_set at hoff
      simp [__cpu_input_boost_kick_max, hoff]
    · rw [hmax hoff hcur hnew h1 h2]
      exact le_max_left _ _
  · intro t0 hadd hoff hprev hwin
    have e540 : cfg.msecs_to_jiffies 540
        = cfg.msecs_to_jiffies 40 + cfg.msecs_to_jiffies 500 := hadd 40 500
    have e540' : cfg.msecs_to_jiffies 540
        = cfg.msecs_to_jiffies 100 + cfg.msecs_to_jiffies 440 := hadd 100 440
    have hfirst := kick_max_deadline_eq cfg b 100 t0 hoff (by omega) (by omega) (by omega)
      (by omega)
    have hon := kick_max_keeps_screen_on cfg b 100 t0 hoff
    have hsecond := kick_max_deadline_eq cfg (__cpu_input_boost_kick_max cfg b 100 t0) 500
      (t0 + cfg.msecs_to_jiffies 40) hon
      (by rw [hfirst]; omega) (by omega) (by rw [hfirst]; omega) (by rw [hfirst]; omega)
    rw [hsecond, hfirst]
    omega

theorem kick_max_deadline_monotone_witness :
    boost_drv_init.max_boost_expires < 2 ^ 64 ∧
      1000 + example_cfg.msecs_to_jiffies 100 < 2 ^ 64 ∧
      (__cpu_input_boost_kick_max example_cfg boost_drv_init 100 1000).max_boost_expires
        = 1100 ∧
      (__cpu_input_boost_kick_max example_cfg
          (__cpu_input_boost_kick_max example_cfg boost_drv_init 100 1000) 500
          1040).max_boost_expires = 1540 := by
  have h := kick_max_deadline_monotone example_cfg boost_drv_init 100 1000
    (by decide) (by decide) (by decide) (by decide)
  refine ⟨by decide, by decide, ?_, ?_⟩
  · exact h.2.1 (by decide)
  · exact h.2.2 1000 (fun _ _ => rfl) (by decide) (by decide) (by decide)

/-! ## C6: two racing max-boost requests -/

/-- One atomic action of a call whose target lies in the window `[lo, hi]` of
exact arithmetic: the screen stays on, the deadline only grows and stays below
`hi`, the call keeps its invariant, a write to the deadline puts the call past
its loop, a call past its loop writes no more, and the call is never stale after
its own action. -/
theorem kick_max_step_spec (cfg : Config) (now d lo hi : Nat) (pc : kick_max_pc)
    (b : boost_drv)
    (hoff : ¬ flag_set (get_boost_state b) SCREEN_OFF)
    (hD : now + cfg.msecs_to_jiffies d ≤ hi) (hlo : lo ≤ b.max_boost_expires)
    (hhi : b.max_boost_expires ≤ hi) (hw1 : hi < 2 ^ 64) (hw2 : hi < lo + 2 ^ 63)
    (hw3 : hi < now + 2 ^ 63)
    (hinv : pc_inv (now + cfg.msecs_to_jiffies d) pc b.max_boost_expires) :
    ¬ flag_set (get_boost_state (kick_max_step cfg now d pc b).2) SCREEN_OFF ∧
      b.max_boost_expires ≤ (kick_max_step cfg now d pc b).2.max_boost_expires ∧
      (kick_max_step cfg now d pc b).2.max_boost_expires ≤ hi ∧
      pc_inv (now + cfg.msecs_to_jiffies d) (kick_max_step cfg now d pc b).1
        (kick_max_step cfg now d pc b).2.max_boost_expires ∧
      ((kick_max_step cfg now d pc b).2.max_boost_expires ≠ b.max_boost_expires →
        pc_post (kick_max_step cfg now d pc b).1 = true) ∧
      (pc_post pc = true → pc_post (kick_max_step cfg now d pc b).1 = true ∧
        (kick_max_step cfg now d pc b).2.max_boost_expires = b.max_boost_expires) ∧
      pc_stale (kick_max_step cfg now d pc b).1
        (kick_max_step cfg now d pc b).2.max_boost_expires = false := by
  have e0 : SCREEN_OFF = 2 ^ 0 := rfl
  have e2 : MAX_BOOST = 2 ^ 2 := rfl
  have hoff' : ¬ (get_boost_state b &&& SCREEN_OFF ≠ 0) := hoff
  have hj : (jiffies now + cfg.msecs_to_jiffies d) % ULONG_SIZE
      = now + cfg.msecs_to_jiffies d := by
    unfold jiffies ULONG_SIZE
    omega
  have hta : time_after b.max_boost_expires (now + cfg.msecs_to_jiffies d)
      = decide (now + cfg.msecs_to_jiffies d < b.max_boost_expires) :=
    time_after_eq _ _ (by omega) (by omega) (by omega) (by omega)
  cases pc with
  | entry => simp [kick_max_step, hoff', hoff, hhi, pc_inv, pc_post, pc_stale]
  | loop_read =>
    by_cases hlt : now + cfg.msecs_to_jiffies d < b.max_boost_expires
    · simp [kick_max_step, hj, hta, hlt, hoff, hhi, pc_inv, pc_post, pc_stale]
      omega
    · simp [kick_max_step, hj, hta, hlt, hoff, hhi, pc_inv, pc_post, pc_stale]
      omega
  | loop_cmpxchg curr new =>
    obtain ⟨hnew, hcurr⟩ := hinv
    by_cases heq : b.max_boost_expires = curr
    · simp [kick_max_step, heq, pc_inv, pc_post, pc_stale, hnew, get_boost_state] at hoff ⊢
      refine ⟨hoff, ?_, ?_⟩ <;> omega
    · simp [kick_max_step, heq, hoff, hhi, pc_inv, pc_post, pc_stale]
  | set_bit =>
    simp only [pc_inv] at hinv
    simp only [kick_max_step, set_boost_bit, get_boost_state, pc_inv, pc_post, pc_stale]
    rw [e0, e2, flag_set_or_two_pow]
    rw [e0] at hoff
    refine ⟨?_, le_refl _, hhi, hinv, by simp, by simp, trivial⟩
    rintro (h | h)
    · exact hoff h
    · exact absurd h (by decide)
  | wake =>
    simp only [pc_inv] at hinv
    simp [kick_max_step, wake_up, pc_inv, pc_post, pc_stale, hhi, hinv]
    exact hoff
  | rearm =>
    simp only [pc_inv] at hinv
    simp [kick_max_step, pc_inv, pc_post, pc_stale, hhi, hinv]
    exact hoff
  | returned =>
    simp only [pc_inv] at hinv
    simp [kick_max_step, pc_inv, pc_post, pc_stale, hhi, hinv, hoff]

theorem pc_inv_mono (target : Nat) (pc : kick_max_pc) (dl dl' : Nat) (h : dl ≤ dl')
    (hinv : pc_inv target pc dl) : pc_inv target pc dl' := by
  cases pc <;> simp only [pc_inv] at hinv ⊢ <;> first | exact hinv | omega

/-- An action of a call costs one unit of its potential. -/
theorem kick_max_step_potential (cfg : Config) (now d : Nat) (pc other : kick_max_pc)
    (b : boost_drv)
    (hstale : pc_stale pc b.max_boost_expires = true → pc_post other = true) :
    pc_potential (kick_max_step cfg now d pc b).1 other
        (kick_max_step cfg now d pc b).2.max_boost_expires
      ≤ pc_potential pc other b.max_boost_expires - 1 := by
  cases pc with
  | entry =>
    by_cases h : get_boost_state b &&& SCREEN_OFF ≠ 0 <;>
      cases ho : pc_post other <;>
      simp [kick_max_step, pc_potential, pc_base, pc_post, pc_stale, h, ho]
  | loop_read =>
    cases ht : time_after b.max_boost_expires
        ((jiffies now + cfg.msecs_to_jiffies d) % ULONG_SIZE) <;>
      cases ho : pc_post other <;>
      simp [kick_max_step, pc_potential, pc_base, pc_post, pc_stale, ht, ho]
  | loop_cmpxchg curr new =>
    by_cases heq : b.max_boost_expires = curr
    · cases ho : pc_post other <;>
        simp [kick_max_step, pc_potential, pc_base, pc_post, pc_stale, heq, ho]
    · have hne : curr ≠ b.max_boost_expires := fun h => heq h.symm
      have ho : pc_post other = true := hstale (by simp [pc_stale, hne])
      simp only [kick_max_step, heq, if_false, pc_potential, ho, pc_stale]
      simp [pc_base, hne, pc_post]
  | set_bit => simp [kick_max_step, pc_potential, pc_base, pc_post]
  | wake => simp [kick_max_step, pc_potential, pc_base, pc_post]
  | rearm => simp [kick_max_step, pc_potential, pc_base, pc_post]
  | returned => simp [kick_max_step, pc_potential, pc_base, pc_post]

/-- An action of one call does not raise the potential of the other. -/
theorem pc_potential_frame (pc pc' other : kick_max_pc) (dl dl' : Nat)
    (h : pc_post pc = true → pc_post pc' = true ∧ dl' = dl) :
    pc_potential other pc' dl' ≤ pc_potential other pc dl := by
  cases hp : pc_post pc with
  | true =>
    obtain ⟨h1, h2⟩ := h hp
    simp [pc_potential, h1, h2, hp]
  | false =>
    unfold pc_potential
    simp only [hp]
    cases pc_post other <;> simp
    split <;> omega

theorem race_step_inv (cfg : Config) (now d1 d2 lo hi : Nat) (r : kick_max_race)
    (who : Bool)
    (hD1 : now + cfg.msecs_to_jiffies d1 ≤ hi) (hD2 : now + cfg.msecs_to_jiffies d2 ≤ hi)
    (hw1 : hi < 2 ^ 64) (hw2 : hi < lo + 2 ^ 63) (hw3 : hi < now + 2 ^ 63)
    (hinv : race_inv lo hi (now + cfg.msecs_to_jiffies d1) (now + cfg.msecs_to_jiffies d2) r) :
    race_inv lo hi (now + cfg.msecs_to_jiffies d1) (now + cfg.msecs_to_jiffies d2)
        (race_step cfg now d1 d2 r who) ∧
      pc_potential (race_step cfg now d1 d2 r who).pc1 (race_step cfg now d1 d2 r who).pc2
          (race_step cfg now d1 d2 r who).drv.max_boost_expires
        ≤ pc_potential r.pc1 r.pc2 r.drv.max_boost_expires - (if who then 1 else 0) ∧
      pc_potential (race_step cfg now d1 d2 r who).pc2 (race_step cfg now d1 d2 r who).pc1
          (race_step cfg now d1 d2 r who).drv.max_boost_expires
        ≤ pc_potential r.pc2 r.pc1 r.drv.max_boost_expires - (if who then 0 else 1) := by
  obtain ⟨hoff, hlo, hhi, hi1, hi2, hs1, hs2⟩ := hinv
  cases who with
  | true =>
    obtain ⟨a1, a2, a3, a4, a5, a6, a7⟩ :=
      kick_max_step_spec cfg now d1 lo hi r.pc1 r.drv hoff hD1 hlo hhi hw1 hw2 hw3 hi1
    have hp := kick_max_step_potential cfg now d1 r.pc1 r.pc2 r.drv hs1
    have hf := pc_potential_frame r.pc1 (kick_max_step cfg now d1 r.pc1 r.drv).1 r.pc2
      r.drv.max_boost_expires (kick_max_step cfg now d1 r.pc1 r.drv).2.max_boost_expires a6
    simp only [race_step, if_true]
    refine ⟨⟨a1, le_trans hlo a2, a3, a4, pc_inv_mono _ _ _ _ a2 hi2, ?_, ?_⟩, hp, hf⟩
    · intro h; rw [a7] at h; exact absurd h (by decide)
    · intro h
      by_cases hch : (kick_max_step cfg now d1 r.pc1 r.drv).2.max_boost_expires
          = r.drv.max_boost_expires
      · rw [hch] at h
        exact (a6 (hs2 h)).1
      · exact a5 hch
  | false =>
    obtain ⟨a1, a2, a3, a4, a5, a6, a7⟩ :=
      kick_max_step_spec cfg now d2 lo hi r.pc2 r.drv hoff hD2 hlo hhi hw1 hw2 hw3 hi2
    have hp := kick_max_step_potential cfg now d2 r.pc2 r.pc1 r.drv hs2
    have hf := pc_potential_frame r.pc2 (kick_max_step cfg now d2 r.pc2 r.drv).1 r.pc1
      r.drv.max_boost_expires (kick_max_step cfg now d2 r.pc2 r.drv).2.max_boost_expires a6
    simp only [race_step, Bool.false_eq_true, if_false]
    refine ⟨⟨a1, le_trans hlo a2, a3, pc_inv_mono _ _ _ _ a2 hi1, a4, ?_, ?_⟩, hf, hp⟩
    · intro h
      by_cases hch : (kick_max_step cfg now d2 r.pc2 r.drv).2.max_boost_expires
          = r.drv.max_boost_expires
      · rw [hch] at h
        exact (a6 (hs1 h)).1
      · exact a5 hch
    · intro h; rw [a7] at h; exact absurd h (by decide)

theorem race_run_inv (cfg : Config) (now d1 d2 lo hi : Nat)
    (hD1 : now + cfg.msecs_to_jiffies d1 ≤ hi) (hD2 : now + cfg.msecs_to_jiffies d2 ≤ hi)
    (hw1 : hi < 2 ^ 64) (hw2 : hi < lo + 2 ^ 63) (hw3 : hi < now + 2 ^ 63)
    (sched : List Bool) :
    ∀ r : kick_max_race,
      race_inv lo hi (now + cfg.msecs_to_jiffies d1) (now + cfg.msecs_to_jiffies d2) r →
      race_inv lo hi (now + cfg.msecs_to_jiffies d1) (now + cfg.msecs_to_jiffies d2)
          (race_run cfg now d1 d2 r sched) ∧
        pc_potential (race_run cfg now d1 d2 r sched).pc1 (race_run cfg now d1 d2 r sched).pc2
            (race_run cfg now d1 d2 r sched).drv.max_boost_expires
          ≤ pc_potential r.pc1 r.pc2 r.drv.max_boost_expires - sched.count true ∧
        pc_potential (race_run cfg now d1 d2 r sched).pc2 (race_run cfg now d1 d2 r sched).pc1
            (race_run cfg now d1 d2 r sched).drv.max_boost_expires
          ≤ pc_potential r.pc2 r.pc1 r.drv.max_boost_expires - sched.count false := by
  induction sched with
  | nil => intro r hinv; exact ⟨hinv, by simp [race_run], by simp [race_run]⟩
  | cons who rest ih =>
    intro r hinv
    obtain ⟨s1, s2, s3⟩ := race_step_inv cfg now d1 d2 lo hi r who hD1 hD2 hw1 hw2 hw3 hinv
    obtain ⟨t1, t2, t3⟩ := ih (race_step cfg now d1 d2 r who) s1
    have hrun : race_run cfg now d1 d2 r (who :: rest)
        = race_run cfg now d1 d2 (race_step cfg now d1 d2 r who) rest := rfl
    rw [hrun]
    refine ⟨t1, ?_, ?_⟩
    · cases who <;> simp [List.count_cons] at s2 ⊢ <;> omega
    · cases who <;> simp [List.count_cons] at s3 ⊢ <;> omega

theorem pc_potential_zero (pc other : kick_max_pc) (dl : Nat)
    (h : pc_potential pc other dl ≤ 0) : pc = .returned := by
  cases pc <;> simp [pc_potential, pc_base] at h ⊢

/-- A call that runs alone performs six atomic actions and leaves what
`__cpu_input_boost_kick_max` computes. -/
theorem kick_max_steps_alone (cfg : Config) (now d : Nat) (b : boost_drv) :
    (fun q : kick_max_pc × boost_drv => kick_max_step cfg now d q.1 q.2)^[6] (.entry, b)
      = (.returned, __cpu_input_boost_kick_max cfg b d now) := by
  simp only [Function.iterate_succ, Function.iterate_zero, Function.comp, id]
  unfold __cpu_input_boost_kick_max
  by_cases h0 : get_boost_state b &&& SCREEN_OFF ≠ 0
  · simp [kick_max_step, h0]
  · by_cases ht : time_after b.max_boost_expires
        ((jiffies now + cfg.msecs_to_jiffies d) % ULONG_SIZE) = true
    · simp [kick_max_step, h0, ht]
    · simp [kick_max_step, h0, ht]

/-- C6. Two requests `kickMax d1`, `kickMax d2` with `d1 < d2` issued at the same
instant `now`, with `ScreenOff` unset and the old deadline not later than
`now + d2` (exact arithmetic: `now + d2` is a 64-bit value less than half the
counter range after `now` and after the old deadline), leave the deadline at
`now + d2`: in both sequential orders, and in every interleaving of the atomic
actions of the two calls, as soon as both have returned; both have returned once
each has been scheduled eight times. -/
theorem kick_max_race_longer_wins (cfg : Config) (b : boost_drv) (now d1 d2 : Nat)
    (sched : List Bool) (hd : d1 < d2) (hconv : Monotone cfg.msecs_to_jiffies)
    (hoff : ¬ flag_set (get_boost_state b) SCREEN_OFF)
    (hprev : b.max_boost_expires ≤ now + cfg.msecs_to_jiffies d2)
    (hw1 : now + cfg.msecs_to_jiffies d2 < 2 ^ 64)
    (hw2 : now + cfg.msecs_to_jiffies d2 < b.max_boost_expires + 2 ^ 63)
    (hw3 : cfg.msecs_to_jiffies d2 < 2 ^ 63) :
    (__cpu_input_boost_kick_max cfg (__cpu_input_boost_kick_max cfg b d1 now) d2
        now).max_boost_expires = now + cfg.msecs_to_jiffies d2 ∧
      (__cpu_input_boost_kick_max cfg (__cpu_input_boost_kick_max cfg b d2 now) d1
        now).max_boost_expires = now + cfg.msecs_to_jiffies d2 ∧
      ((race_run cfg now d1 d2 (race_start b) sched).pc1 = .returned →
        (race_run cfg now d1 d2 (race_start b) sched).pc2 = .returned →
        (race_run cfg now d1 d2 (race_start b) sched).drv.max_boost_expires
          = now + cfg.msecs_to_jiffies d2) ∧
      (8 ≤ sched.count true → 8 ≤ sched.count false →
        (race_run cfg now d1 d2 (race_start b) sched).pc1 = .returned ∧
          (race_run cfg now d1 d2 (race_start b) sched).pc2 = .returned ∧
          (race_run cfg now d1 d2 (race_start b) sched).drv.max_boost_expires
            = now + cfg.msecs_to_jiffies d2) := by
  have hle : cfg.msecs_to_jiffies d1 ≤ cfg.msecs_to_jiffies d2 := hconv (le_of_lt hd)
  have hstart : race_inv b.max_boost_expires (now + cfg.msecs_to_jiffies d2)
      (now + cfg.msecs_to_jiffies d1) (now + cfg.msecs_to_jiffies d2) (race_start b) := by
    refine ⟨hoff, le_refl _, hprev, trivial, trivial, ?_, ?_⟩ <;>
      simp [race_start, pc_stale]
  obtain ⟨⟨_, _, hhi, hi1, hi2, _, _⟩, hp1, hp2⟩ :=
    race_run_inv cfg now d1 d2 b.max_boost_expires (now + cfg.msecs_to_jiffies d2)
      (by omega) (le_refl _) hw1 hw2 (by omega) sched (race_start b) hstart
  have hboth : (race_run cfg now d1 d2 (race_start b) sched).pc1 = .returned →
      (race_run cfg now d1 d2 (race_start b) sched).pc2 = .returned →
      (race_run cfg now d1 d2 (race_start b) sched).drv.max_boost_expires
        = now + cfg.msecs_to_jiffies d2 := by
    intro _ h2
    rw [h2] at hi2
    simp only [pc_inv] at hi2
    omega
  have hseq1 := kick_max_deadline_eq cfg b d1 now hoff (by omega) (by omega) (by omega)
    (by omega)
  have hseq2 := kick_max_deadline_eq cfg b d2 now hoff (by omega) (by omega) (by omega)
    (by omega)
  have hon1 := kick_max_keeps_screen_on cfg b d1 now hoff
  have hon2 := kick_max_keeps_screen_on cfg b d2 now hoff
  have hseq12 := kick_max_deadline_eq cfg (__cpu_input_boost_kick_max cfg b d1 now) d2 now
    hon1 (by rw [hseq1]; omega) (by omega) (by rw [hseq1]; omega) (by rw [hseq1]; omega)
  have hseq21 := kick_max_deadline_eq cfg (__cpu_input_boost_kick_max cfg b d2 now) d1 now
    hon2 (by rw [hseq2]; omega) (by omega) (by rw [hseq2]; omega) (by rw [hseq2]; omega)
  refine ⟨by rw [hseq12, hseq1]; omega, by rw [hseq21, hseq2]; omega, hboth, ?_⟩
  intro hc1 hc2
  have e8 : pc_potential (race_start b).pc1 (race_start b).pc2
      (race_start b).drv.max_boost_expires = 8 := by
    simp [race_start, pc_potential, pc_base, pc_post]
  have e8' : pc_potential (race_start b).pc2 (race_start b).pc1
      (race_start b).drv.max_boost_expires = 8 := by
    simp [race_start, pc_potential, pc_base, pc_post]
  have r1 := pc_potential_zero _ _ _ (by rw [e8] at hp1; omega : pc_potential
    (race_run cfg now d1 d2 (race_start b) sched).pc1
    (race_run cfg now d1 d2 (race_start b) sched).pc2
    (race_run cfg now d1 d2 (race_start b) sched).drv.max_boost_expires ≤ 0)
  have r2 := pc_potential_zero _ _ _ (by rw [e8'] at hp2; omega : pc_potential
    (race_run cfg now d1 d2 (race_start b) sched).pc2
    (race_run cfg now d1 d2 (race_start b) sched).pc1
    (race_run cfg now d1 d2 (race_start b) sched).drv.max_boost_expires ≤ 0)
  exact ⟨r1, r2, hboth r1 r2⟩

theorem kick_max_race_longer_wins_witness :
    (100 < 500 ∧ ¬ flag_set (get_boost_state boost_drv_init) SCREEN_OFF ∧
      boost_drv_init.max_boost_expires ≤ 1000 + example_cfg.msecs_to_jiffies 500) ∧
      (race_run example_cfg 1000 100 500 (race_start boost_drv_init)
          example_schedule).pc1 = .returned ∧
      (race_run example_cfg 1000 100 500 (race_start boost_drv_init)
          example_schedule).pc2 = .returned ∧
      (race_run example_cfg 1000 100 500 (race_start boost_drv_init)
          example_schedule).drv.max_boost_expires = 1500 :=
  ⟨⟨by decide, by decide, by decide⟩,
    (kick_max_race_longer_wins example_cfg boost_drv_init 1000 100 500 example_schedule
      (by decide) (fun _ _ h => h) (by decide) (by decide) (by decide) (by decide)
      (by decide)).2.2.2 (by decide) (by decide)⟩

/-! ## C8: the input-boost debounce -/

/-- Clearing one of the bits 1, 2 of a 32-bit flag word, read at bits 0, 1, 2. -/
theorem flag_set_andnot_cases (s : Nat) :
    ((flag_set (atomic_andnot 2 s) 1 ↔ flag_set s 1) ∧ ¬ flag_set (atomic_andnot 2 s) 2 ∧
      (flag_set (atomic_andnot 2 s) 4 ↔ flag_set s 4)) ∧
    ((flag_set (atomic_andnot 4 s) 1 ↔ flag_set s 1) ∧
      (flag_set (atomic_andnot 4 s) 2 ↔ flag_set s 2) ∧ ¬ flag_set (atomic_andnot 4 s) 4) := by
  have c01 := flag_set_andnot_two_pow s 1 0 (by decide)
  have c11 := flag_set_andnot_two_pow s 1 1 (by decide)
  have c21 := flag_set_andnot_two_pow s 1 2 (by decide)
  have c02 := flag_set_andnot_two_pow s 2 0 (by decide)
  have c12 := flag_set_andnot_two_pow s 2 1 (by decide)
  have c22 := flag_set_andnot_two_pow s 2 2 (by decide)
  norm_num at c01 c11 c21 c02 c12 c22
  exact ⟨⟨c01, c11, c21⟩, ⟨c02, c12, c22⟩⟩

/-- What timer expiry at `now` does to the screen bit, the input flag and the
input delayed work. -/
theorem fire_timers_spec (b : boost_drv) (now : Nat) :
    (flag_set (fire_timers b now).state SCREEN_OFF ↔ flag_set b.state SCREEN_OFF) ∧
      (∀ f, b.input_unboost = some f → f ≤ now →
        ¬ flag_set (fire_timers b now).state INPUT_BOOST ∧
          (fire_timers b now).input_unboost = none) ∧
      ((∀ f, b.input_unboost = some f → now < f) →
        (flag_set (fire_timers b now).state INPUT_BOOST ↔ flag_set b.state INPUT_BOOST) ∧
          (fire_timers b now).input_unboost = b.input_unboost) := by
  have e0 : SCREEN_OFF = 1 := rfl
  have e1 : INPUT_BOOST = 2 := rfl
  have e2 : MAX_BOOST = 4 := rfl
  obtain ⟨⟨c01, c11, -⟩, ⟨c02, c12, -⟩⟩ := flag_set_andnot_cases b.state
  obtain ⟨-, ⟨d02, d12, -⟩⟩ := flag_set_andnot_cases (atomic_andnot 2 b.state)
  rw [e0, e1]
  rcases hi : b.input_unboost with _ | f <;> rcases hm : b.max_unboost with _ | g
  · simp [fire_timers, hi, hm]
  · by_cases hg : g ≤ now
    · simp [fire_timers, hi, hm, hg, max_unboost_worker, wake_up, clear_boost_bit, e2, c02, c12]
    · simp [fire_timers, hi, hm, hg]
  · by_cases hf : f ≤ now
    · simp [fire_timers, hi, hm, hf, input_unboost_worker, wake_up, clear_boost_bit, e1, c01, c11]
    · simp [fire_timers, hi, hm, hf]
      omega
  · by_cases hf : f ≤ now <;> by_cases hg : g ≤ now
    · simp [fire_timers, hi, hm, hf, hg, input_unboost_worker, max_unboost_worker, wake_up,
        clear_boost_bit, e1, e2, c01, c11, d02, d12]
    · simp [fire_timers, hi, hm, hf, hg, input_unboost_worker, wake_up, clear_boost_bit, e1,
        c01, c11]
    · simp [fire_timers, hi, hm, hf, hg, max_unboost_worker, wake_up, clear_boost_bit, e2,
        c02, c12]
      omega
    · simp [fire_timers, hi, hm, hf, hg]
      omega

/-- Setting one of the bits 1, 2 of a flag word, read at bits 0, 1, 2. -/
theorem flag_set_or_cases (s : Nat) :
    ((flag_set (s ||| 2) 1 ↔ flag_set s 1) ∧ flag_set (s ||| 2) 2 ∧
      (flag_set (s ||| 2) 4 ↔ flag_set s 4)) ∧
    ((flag_set (s ||| 4) 1 ↔ flag_set s 1) ∧
      (flag_set (s ||| 4) 2 ↔ flag_set s 2) ∧ flag_set (s ||| 4) 4) := by
  have c01 := flag_set_or_two_pow s 1 0
  have c11 := flag_set_or_two_pow s 1 1
  have c21 := flag_set_or_two_pow s 1 2
  have c02 := flag_set_or_two_pow s 2 0
  have c12 := flag_set_or_two_pow s 2 1
  have c22 := flag_set_or_two_pow s 2 2
  norm_num at c01 c11 c21 c02 c12 c22
  exact ⟨⟨c01, c11, c21⟩, ⟨c02, c12, c22⟩⟩

/-- A kick with the screen on sets `INPUT_BOOST` and arms the input delayed work
to fire the configured duration after `now`, whatever was pending. -/
theorem kick_spec (cfg : Config) (b : boost_drv) (now : Nat)
    (hoff : ¬ flag_set b.state SCREEN_OFF) :
    flag_set (__cpu_input_boost_kick cfg b now).state INPUT_BOOST ∧
      (__cpu_input_boost_kick cfg b now).input_unboost
        = some (now + cfg.msecs_to_jiffies cfg.CONFIG_INPUT_BOOST_DURATION_MS) ∧
      ¬ flag_set (__cpu_input_boost_kick cfg b now).state SCREEN_OFF := by
  have e0 : SCREEN_OFF = 1 := rfl
  have e1 : INPUT_BOOST = 2 := rfl
  obtain ⟨⟨c01, c11, -⟩, -⟩ := flag_set_or_cases b.state
  have hoff' : ¬ (get_boost_state b &&& SCREEN_OFF ≠ 0) := hoff
  rw [e0] at hoff
  rw [__cpu_input_boost_kick, if_neg hoff']
  simp only [set_boost_bit, wake_up, mod_delayed_work, e0, e1]
  exact ⟨c11, trivial, fun h => hoff (c01.mp h)⟩

theorem fire_timers_eq (b : boost_drv) (now : Nat) :
    fire_timers b now = fire_max_timer (fire_input_timer b now) now := rfl

/-- C11. From every state with `MaxBoost` set and its deadline still ahead,
after the display-off event the next `CPUFREQ_ADJUST` query gives, for every
core, that core's hardware minimum as the floor. -/
theorem screen_off_floor_during_max_boost (cfg : Config) (b : boost_drv)
    (blank now : Nat) (policy : cpufreq_policy)
    (hmax : flag_set (get_boost_state b) MAX_BOOST) (hdl : now < b.max_boost_expires)
    (hblank : blank ≠ FB_BLANK_UNBLANK) :
    (cpu_notifier_cb cfg (fb_notifier_cb cfg b FB_EARLY_EVENT_BLANK blank now)
        CPUFREQ_ADJUST policy).min = policy.cpuinfo.min_freq ∧
      flag_set (get_boost_state (fb_notifier_cb cfg b FB_EARLY_EVENT_BLANK blank now))
        MAX_BOOST ∧
      now < (fb_notifier_cb cfg b FB_EARLY_EVENT_BLANK blank now).max_boost_expires := by
  have e0 : SCREEN_OFF = 1 := rfl
  have e2 : MAX_BOOST = 4 := rfl
  have hfb : fb_notifier_cb cfg b FB_EARLY_EVENT_BLANK blank now
      = wake_up (set_boost_bit b SCREEN_OFF) := by
    simp [fb_notifier_cb, hblank]
  have hoff : get_boost_state (wake_up (set_boost_bit b SCREEN_OFF)) &&& SCREEN_OFF ≠ 0 :=
    screen_awake_sets_screen_off b
  have h4 : flag_set (b.state ||| 1) 4 ↔ flag_set b.state 4 := by
    have h := flag_set_or_two_pow b.state 0 2
    norm_num at h
    exact h
  rw [hfb]
  refine ⟨?_, ?_, hdl⟩
  · simp [cpu_notifier_cb, hoff]
  · simp only [get_boost_state, wake_up, set_boost_bit, e0, e2] at hmax ⊢
    exact h4.mpr hmax

theorem screen_off_floor_during_max_boost_witness :
    (flag_set (get_boost_state example_boosted) MAX_BOOST ∧
      10 < example_boosted.max_boost_expires) ∧
      (cpu_notifier_cb example_cfg
        (fb_notifier_cb example_cfg example_boosted FB_EARLY_EVENT_BLANK
          FB_BLANK_POWERDOWN 10) CPUFREQ_ADJUST example_policy).min = 300000 :=
  ⟨⟨by decide, by decide⟩,
    (screen_off_floor_during_max_boost example_cfg example_boosted FB_BLANK_POWERDOWN 10
      example_policy (by decide) (by decide) (by decide)).1⟩

/-! ## C12: the floor through a kick and its expiry -/

/-- The floor written on a `CPUFREQ_ADJUST` query is the floor of any branch of
the priority list that applies. -/
theorem cpu_notifier_cb_branch (cfg : Config) (b : boost_drv) (policy : cpufreq_policy)
    (br : FloorBranch) (hbr : branch_applies (get_boost_state b) br) :
    (cpu_notifier_cb cfg b CPUFREQ_ADJUST policy).min = branch_floor cfg policy br := by
  unfold cpu_notifier_cb
  cases br <;> simp only [branch_applies, flag_set] at hbr
  · simp [hbr, branch_floor]
  · simp [hbr.1, hbr.2, branch_floor]
  · simp only [ne_eq, not_true_eq_false, if_false, hbr.1, hbr.2.1, hbr.2.2, if_true,
      branch_floor, class_boost_freq, core_class, get_boost_freq]
    cases cfg.cpu_lp_mask policy.cpu <;> rfl
  · simp only [ne_eq, not_true_eq_false, if_false, hbr.1, hbr.2.1, hbr.2.2,
      branch_floor, class_removed_boost_min, core_class, get_min_freq]
    cases cfg.cpu_lp_mask policy.cpu <;> rfl

/-- Timer expiry never sets one of the bits 0, 1, 2. -/
theorem fire_timers_no_set (b : boost_drv) (now : Nat) :
    (flag_set (fire_timers b now).state 1 → flag_set b.state 1) ∧
      (flag_set (fire_timers b now).state 2 → flag_set b.state 2) ∧
      (flag_set (fire_timers b now).state 4 → flag_set b.state 4) := by
  have e1 : INPUT_BOOST = 2 := rfl
  have e2 : MAX_BOOST = 4 := rfl
  obtain ⟨⟨c01, c11, c21⟩, ⟨c02, c12, c22⟩⟩ := flag_set_andnot_cases b.state
  obtain ⟨-, ⟨d02, d12, d22⟩⟩ := flag_set_andnot_cases (atomic_andnot 2 b.state)
  rcases hi : b.input_unboost with _ | f <;> rcases hm : b.max_unboost with _ | g
  · simp [fire_timers, hi, hm]
  · by_cases hg : g ≤ now
    · simp [fire_timers, hi, hm, hg, max_unboost_worker, wake_up, clear_boost_bit, e2, c02,
        c12, c22]
    · simp [fire_timers, hi, hm, hg]
  · by_cases hf : f ≤ now
    · simp [fire_timers, hi, hm, hf, input_unboost_worker, wake_up, clear_boost_bit, e1, c01,
        c11, c21]
    · simp [fire_timers, hi, hm, hf]
  · by_cases hf : f ≤ now <;> by_cases hg : g ≤ now
    · simp [fire_timers, hi, hm, hf, hg, input_unboost_worker, max_unboost_worker, wake_up,
        clear_boost_bit, e1, e2, c01, c11, c21, d02, d12, d22]
    · simp [fire_timers, hi, hm, hf, hg, input_unboost_worker, wake_up, clear_boost_bit, e1,
        c01, c11, c21]
    · simp [fire_timers, hi, hm, hf, hg, max_unboost_worker, wake_up, clear_boost_bit, e2,
        c02, c12, c22]
    · simp [fire_timers, hi, hm, hf, hg]

/-- C12. From a state with no flag set, for a performance core: after a kick the
floor is `min (proposed maximum) (performance boost frequency)`, which is 1800000
for a boost frequency of 1800000 and a proposed maximum of 2400000; once the
input delayed work has expired with no further kick the floor is back at
`max (hardware minimum) (removed-boost minimum of the class)`. -/
theorem kick_floor_then_rest (cfg : Config) (b : boost_drv) (now t : Nat)
    (policy : cpufreq_policy) (hstate : get_boost_state b = 0)
    (hperf : core_class cfg policy.cpu = .Performance)
    (hexp : now + cfg.msecs_to_jiffies cfg.CONFIG_INPUT_BOOST_DURATION_MS ≤ t) :
    (cpu_notifier_cb cfg (__cpu_input_boost_kick cfg b now) CPUFREQ_ADJUST policy).min
        = min policy.max cfg.input_boost_freq_hp ∧
      (cfg.input_boost_freq_hp = 1800000 → policy.max = 2400000 →
        (cpu_notifier_cb cfg (__cpu_input_boost_kick cfg b now) CPUFREQ_ADJUST policy).min
          = 1800000) ∧
      (cpu_notifier_cb cfg (fire_timers (__cpu_input_boost_kick cfg b now) t)
          CPUFREQ_ADJUST policy).min
        = max policy.cpuinfo.min_freq cfg.CONFIG_REMOVE_INPUT_BOOST_FREQ_PERF ∧
      (cpu_notifier_cb cfg b CPUFREQ_ADJUST policy).min
        = max policy.cpuinfo.min_freq cfg.CONFIG_REMOVE_INPUT_BOOST_FREQ_PERF := by
  have e0 : SCREEN_OFF = 1 := rfl
  have e1 : INPUT_BOOST = 2 := rfl
  have e2 : MAX_BOOST = 4 := rfl
  have hs : b.state = 0 := hstate
  have hoff : ¬ flag_set b.state SCREEN_OFF := by simp [flag_set, hs]
  obtain ⟨k1, k2, k3⟩ := kick_spec cfg b now hoff
  have kmax : ¬ flag_set (__cpu_input_boost_kick cfg b now).state MAX_BOOST := by
    have hoff' : ¬ (get_boost_state b &&& SCREEN_OFF ≠ 0) := hoff
    rw [__cpu_input_boost_kick, if_neg hoff']
    simp only [set_boost_bit, wake_up, hs, e1, e2, flag_set]
    decide
  have hkick : (cpu_notifier_cb cfg (__cpu_input_boost_kick cfg b now) CPUFREQ_ADJUST
      policy).min = min policy.max cfg.input_boost_freq_hp := by
    rw [cpu_notifier_cb_branch cfg _ policy .input_boost ⟨k3, kmax, k1⟩]
    simp [branch_floor, hperf, class_boost_freq]
  obtain ⟨f1, f2, -⟩ := fire_timers_spec (__cpu_input_boost_kick cfg b now) t
  obtain ⟨g1, -⟩ := f2 _ k2 hexp
  have gmax : ¬ flag_set (fire_timers (__cpu_input_boost_kick cfg b now) t).state
      MAX_BOOST := fun h => kmax ((fire_timers_no_set _ t).2.2 h)
  refine ⟨hkick, ?_, ?_, ?_⟩
  · intro hhp hmx; rw [hkick, hhp, hmx]; rfl
  · rw [cpu_notifier_cb_branch cfg _ policy .rest ⟨fun h => k3 (f1.mp h), gmax, g1⟩]
    simp [branch_floor, hperf, class_removed_boost_min]
  · rw [cpu_notifier_cb_branch cfg b policy .rest
      ⟨hoff, by simp [flag_set, hstate], by simp [flag_set, hstate]⟩]
    simp [branch_floor, hperf, class_removed_boost_min]

theorem kick_floor_then_rest_witness :
    (get_boost_state boost_drv_init = 0 ∧
      core_class example_cfg example_policy.cpu = .Performance) ∧
      (cpu_notifier_cb example_cfg (__cpu_input_boost_kick example_cfg boost_drv_init 0)
        CPUFREQ_ADJUST example_policy).min = 1800000 ∧
      (cpu_notifier_cb example_cfg
        (fire_timers (__cpu_input_boost_kick example_cfg boost_drv_init 0) 64)
        CPUFREQ_ADJUST example_policy).min = 652800 := by
  have h := kick_floor_then_rest example_cfg boost_drv_init 0 64 example_policy
    (by decide) (by decide) (by decide)
  exact ⟨⟨by decide, by decide⟩, h.2.1 rfl rfl, h.2.2.1⟩

/-! ## C13: the flag masks -/

/-- C13 (the code departs from it). The masks are not pairwise disjoint:
`SCREEN_AWAKE` is the bit of `SCREEN_OFF` and `WAKE_BOOST` is the bit of
`MAX_BOOST`. Setting `ScreenAwake` in the empty flag word makes `ScreenOff` a
member, and clearing `MaxBoost` removes `WakeBoost`. -/
theorem flag_masks_alias :
    SCREEN_AWAKE &&& SCREEN_OFF ≠ 0 ∧ WAKE_BOOST &&& MAX_BOOST ≠ 0 ∧
      (¬ flag_set boost_drv_init.state SCREEN_OFF ∧
        flag_set (set_boost_bit boost_drv_init SCREEN_AWAKE).state SCREEN_OFF) ∧
      (flag_set (set_boost_bit boost_drv_init WAKE_BOOST).state WAKE_BOOST ∧
        ¬ flag_set (clear_boost_bit (set_boost_bit boost_drv_init WAKE_BOOST)
            MAX_BOOST).state WAKE_BOOST) := by
  decide

/-! ## C14: a shorter request does not shorten a longer boost -/

/-- C14. With `ScreenOff` unset and the stored deadline strictly later than
`now + d` (both 64-bit values, less than half the counter range apart),
`kickMax d` returns the instance unchanged: flag word, deadline and the pending
fire time of the max delayed work are as before, `MAX_BOOST` is not set by the
call. -/
theorem kick_max_shorter_is_noop (cfg : Config) (b : boost_drv) (duration_ms now : Nat)
    (hoff : ¬ flag_set (get_boost_state b) SCREEN_OFF)
    (hlater : now + cfg.msecs_to_jiffies duration_ms < b.max_boost_expires)
    (hcur : b.max_boost_expires < 2 ^ 64)
    (hwin : b.max_boost_expires < now + cfg.msecs_to_jiffies duration_ms + 2 ^ 63) :
    __cpu_input_boost_kick_max cfg b duration_ms now = b ∧
      (__cpu_input_boost_kick_max cfg b duration_ms now).state = b.state ∧
      (__cpu_input_boost_kick_max cfg b duration_ms now).max_boost_expires
        = b.max_boost_expires ∧
      (__cpu_input_boost_kick_max cfg b duration_ms now).max_unboost = b.max_unboost ∧
      kick_max_step cfg now duration_ms .loop_read b = (.returned, b) := by
  have hj : (jiffies now + cfg.msecs_to_jiffies duration_ms) % ULONG_SIZE
      = now + cfg.msecs_to_jiffies duration_ms := by
    unfold jiffies ULONG_SIZE
    omega
  have hta : time_after b.max_boost_expires (now + cfg.msecs_to_jiffies duration_ms)
      = true := by
    rw [time_after_eq _ _ hcur (by omega) hwin (by omega)]
    exact decide_eq_true hlater
  have hoff' : ¬ (get_boost_state b &&& SCREEN_OFF ≠ 0) := hoff
  have heq : __cpu_input_boost_kick_max cfg b duration_ms now = b := by
    unfold __cpu_input_boost_kick_max
    simp only [hoff', if_false, hj, hta, if_true]
  refine ⟨heq, by rw [heq], by rw [heq], by rw [heq], ?_⟩
  simp only [kick_max_step, hj, hta, if_true]

theorem kick_max_shorter_is_noop_witness :
    (¬ flag_set (get_boost_state example_boosted) SCREEN_OFF ∧
      500 + example_cfg.msecs_to_jiffies 100 < example_boosted.max_boost_expires) ∧
      __cpu_input_boost_kick_max example_cfg example_boosted 100 500 = example_boosted :=
  ⟨⟨by decide, by decide⟩,
    (kick_max_shorter_is_noop example_cfg example_boosted 100 500 (by decide) (by decide)
      (by decide) (by decide)).1⟩

/-! ## C15: what a timer expiry changes -/

theorem atomic_andnot_idem (mask v : Nat) :
    atomic_andnot mask (atomic_andnot mask v) = atomic_andnot mask v := by
  unfold atomic_andnot
  rw [Nat.land_assoc, Nat.and_self]

/-- C15 (the code departs from it in one point). The expiry of the max delayed
work clears bit 2, which is the mask of `MAX_BOOST` and of `WAKE_BOOST` alike:
from the flag word 6, where `WakeBoost` is a member, it leaves 2, so a flag other
than `MaxBoost` is cleared. Everything else the claim says holds: each expiry
clears its own bit, leaves every other bit of the 32-bit word and the deadline
as they were, is idempotent on the flag word, and sets no bit. -/
theorem unboost_worker_effect :
    (flag_set example_boosted.state WAKE_BOOST ∧
      ¬ flag_set (max_unboost_worker example_boosted).state WAKE_BOOST) ∧
    (∀ b : boost_drv,
      ¬ flag_set (input_unboost_worker b).state INPUT_BOOST ∧
      ¬ flag_set (max_unboost_worker b).state MAX_BOOST ∧
      (∀ k, k < 32 → k ≠ 1 →
        (flag_set (input_unboost_worker b).state (2 ^ k) ↔ flag_set b.state (2 ^ k))) ∧
      (∀ k, k < 32 → k ≠ 2 →
        (flag_set (max_unboost_worker b).state (2 ^ k) ↔ flag_set b.state (2 ^ k))) ∧
      (input_unboost_worker b).max_boost_expires = b.max_boost_expires ∧
      (max_unboost_worker b).max_boost_expires = b.max_boost_expires ∧
      (input_unboost_worker (input_unboost_worker b)).state
        = (input_unboost_worker b).state ∧
      (max_unboost_worker (max_unboost_worker b)).state = (max_unboost_worker b).state ∧
      (∀ k, k < 32 → flag_set (input_unboost_worker b).state (2 ^ k) →
        flag_set b.state (2 ^ k)) ∧
      (∀ k, k < 32 → flag_set (max_unboost_worker b).state (2 ^ k) →
        flag_set b.state (2 ^ k))) := by
  have e1 : INPUT_BOOST = 2 ^ 1 := rfl
  have e2 : MAX_BOOST = 2 ^ 2 := rfl
  refine ⟨by decide, fun b => ?_⟩
  simp only [input_unboost_worker, max_unboost_worker, wake_up, clear_boost_bit, e1, e2]
  refine ⟨?_, ?_, ?_, ?_, trivial, trivial, atomic_andnot_idem _ _, atomic_andnot_idem _ _,
    ?_, ?_⟩
  · exact fun h => ((flag_set_andnot_two_pow b.state 1 1 (by decide)).mp h).2 rfl
  · exact fun h => ((flag_set_andnot_two_pow b.state 2 2 (by decide)).mp h).2 rfl
  · intro k hk hne
    rw [flag_set_andnot_two_pow b.state 1 k hk]
    exact ⟨fun h => h.1, fun h => ⟨h, fun e => hne e.symm⟩⟩
  · intro k hk hne
    rw [flag_set_andnot_two_pow b.state 2 k hk]
    exact ⟨fun h => h.1, fun h => ⟨h, fun e => hne e.symm⟩⟩
  · exact fun k hk h => ((flag_set_andnot_two_pow b.state 1 k hk).mp h).1
  · exact fun k hk h => ((flag_set_andnot_two_pow b.state 2 k hk).mp h).1

/-! ## C16: the unwind chain of initialization -/

/-- C16. When initialization fails at step `k` its call log is: the steps before
`k` acquired in order, then the same resources released in the reverse order
(display notifier, input handler, governor notifier, state allocation), so
nothing is released that was not acquired; the worker thread is never released,
the global instance stays unset. -/
theorem init_unwinds_in_reverse (env : init_env) (k : Nat)
    (hk : init_failing_step env = some k) :
    (cpu_input_boost_init env).calls
        = (init_order.take k).map init_call.acquire
          ++ (init_order.take k).reverse.map init_call.release ∧
      acquired (cpu_input_boost_init env).calls = init_order.take k ∧
      released (cpu_input_boost_init env).calls = (init_order.take k).reverse ∧
      (∀ r, r ∈ released (cpu_input_boost_init env).calls →
        r ∈ acquired (cpu_input_boost_init env).calls) ∧
      init_resource.boost_thread ∉ released (cpu_input_boost_init env).calls ∧
      (cpu_input_boost_init env).boost_drv_g = none := by
  obtain ⟨kz, r1, r2, r3, kt⟩ := env
  unfold init_failing_step at hk
  simp only at hk
  have hcalls : (cpu_input_boost_init ⟨kz, r1, r2, r3, kt⟩).calls
      = (init_order.take k).map init_call.acquire
        ++ (init_order.take k).reverse.map init_call.release ∧
      (cpu_input_boost_init ⟨kz, r1, r2, r3, kt⟩).boost_drv_g = none := by
    cases kz with
    | false =>
      simp at hk; subst hk
      simp [cpu_input_boost_init, init_order]
    | true =>
      by_cases h1 : r1 ≠ 0
      · simp [h1] at hk; subst hk
        simp [cpu_input_boost_init, init_order, h1]
      · by_cases h2 : r2 ≠ 0
        · simp [h1, h2] at hk; subst hk
          simp [cpu_input_boost_init, init_order, h1, h2]
        · by_cases h3 : r3 ≠ 0
          · simp [h1, h2, h3] at hk; subst hk
            simp [cpu_input_boost_init, init_order, h1, h2, h3]
          · cases kt with
            | none => simp [h1, h2, h3] at hk
            | some err =>
              simp [h1, h2, h3] at hk; subst hk
              simp [cpu_input_boost_init, init_order, h1, h2, h3]
  obtain ⟨hc, hg⟩ := hcalls
  have hklt : k ≤ 4 := by
    cases kz with
    | false => simp at hk; omega
    | true =>
      by_cases h1 : r1 ≠ 0
      · simp [h1] at hk; omega
      · by_cases h2 : r2 ≠ 0
        · simp [h1, h2] at hk; omega
        · by_cases h3 : r3 ≠ 0
          · simp [h1, h2, h3] at hk; omega
          · cases kt with
            | none => simp [h1, h2, h3] at hk
            | some err => simp [h1, h2, h3] at hk; omega
  rw [hc]
  have hcases : k = 0 ∨ k = 1 ∨ k = 2 ∨ k = 3 ∨ k = 4 := by omega
  refine ⟨rfl, ?_, ?_, ?_, ?_, hg⟩ <;>
    rcases hcases with h | h | h | h | h <;> subst h <;> decide

theorem init_unwinds_in_reverse_witness :
    init_failing_step example_thread_failure = some 4 ∧
      released (cpu_input_boost_init example_thread_failure).calls
        = [.fb_notif, .input_handler, .cpu_notif, .state_alloc] ∧
      acquired (cpu_input_boost_init example_thread_failure).calls
        = [.state_alloc, .cpu_notif, .input_handler, .fb_notif] :=
  ⟨by decide,
    (init_unwinds_in_reverse example_thread_failure 4 (by decide)).2.2.1,
    (init_unwinds_in_reverse example_thread_failure 4 (by decide)).2.1⟩

/-! ## C17: one pass of the notification worker -/

/-- The wait returns the first observed flag word that differs from `old_state`
when no stop is requested, and stays blocked exactly when there is none. -/
theorem wait_event_interruptible_spec (old_state : Nat) (observed : List (Nat × Bool))
    (hstop : ∀ o ∈ observed, o.2 = false) :
    (∀ curr, wait_event_interruptible old_state observed = some curr →
      curr ≠ old_state ∧ curr ∈ observed.map Prod.fst) ∧
      (wait_event_interruptible old_state observed = none ↔
        ∀ o ∈ observed, o.1 = old_state) := by
  induction observed with
  | nil => simp [wait_event_interruptible]
  | cons o rest ih =>
    obtain ⟨v, stop⟩ := o
    have hs : stop = false := hstop (v, stop) (List.mem_cons_self _ _)
    subst hs
    obtain ⟨ih1, ih2⟩ := ih (fun o ho => hstop o (List.mem_cons_of_mem _ ho))
    by_cases hv : v = old_state
    · subst hv
      simp only [wait_event_interruptible, ne_eq, not_true_eq_false, Bool.false_eq_true,
        or_self, if_false]
      refine ⟨fun curr hc => ⟨(ih1 curr hc).1, ?_⟩, ?_⟩
      · simp only [List.map_cons, List.mem_cons]
        exact Or.inr (ih1 curr hc).2
      · rw [ih2]
        simp
    · simp only [wait_event_interruptible, ne_eq, hv, not_false_eq_true, true_or, if_true]
      refine ⟨fun curr hc => ?_, ?_⟩
      · cases hc
        exact ⟨hv, by simp⟩
      · simp [hv]

/-- C17. In a pass of the worker during which no stop is requested: a policy
recomputation is requested only when an observed flag word differs from
`old_state`, it is then requested once for each online cpu, and afterwards
`old_state` is the observed word; while every observed word equals `old_state`
the worker stays blocked and requests nothing. However many events changed the
flag word since the last pass, the pass that sees the result makes a single
recomputation. -/
theorem boost_thread_pass_coalesces (online : List Nat) (th : boost_thread)
    (observed : List (Nat × Bool)) (hstop : ∀ o ∈ observed, o.2 = false) :
    (∀ th', cpu_boost_thread_pass online th observed = some th' →
      th'.old_state ≠ th.old_state ∧ th'.old_state ∈ observed.map Prod.fst ∧
        th'.policy_calls = th.policy_calls ++ online) ∧
      ((∀ o ∈ observed, o.1 = th.old_state) →
        cpu_boost_thread_pass online th observed = none) ∧
      ((∃ o ∈ observed, o.1 ≠ th.old_state) →
        ∃ th', cpu_boost_thread_pass online th observed = some th') ∧
      (∀ (cfg : Config) (b : boost_drv) (evs : List ctl_event),
        (ctl_run cfg b evs).state ≠ th.old_state →
        cpu_boost_thread_pass online th [(get_boost_state (ctl_run cfg b evs), false)]
          = some { old_state := (ctl_run cfg b evs).state,
                   policy_calls := th.policy_calls ++ online }) := by
  obtain ⟨w1, w2⟩ := wait_event_interruptible_spec th.old_state observed hstop
  refine ⟨?_, ?_, ?_, ?_⟩
  · intro th' hpass
    unfold cpu_boost_thread_pass at hpass
    cases hw : wait_event_interruptible th.old_state observed with
    | none => rw [hw] at hpass; cases hpass
    | some curr =>
      rw [hw] at hpass
      cases hpass
      exact ⟨(w1 curr hw).1, (w1 curr hw).2, rfl⟩
  · intro hall
    unfold cpu_boost_thread_pass
    rw [w2.mpr hall]
  · rintro ⟨o, ho, hne⟩
    unfold cpu_boost_thread_pass
    cases hw : wait_event_interruptible th.old_state observed with
    | none => exact absurd (w2.mp hw o ho) hne
    | some curr => exact ⟨_, rfl⟩
  · intro cfg b evs hne
    simp [cpu_boost_thread_pass, wait_event_interruptible, get_boost_state, hne,
      update_online_cpu_policy_calls]

theorem boost_thread_pass_coalesces_witness :
    (∀ o ∈ example_observed, o.2 = false) ∧
      ∃ th', cpu_boost_thread_pass [0, 1, 2, 3] boost_thread_init example_observed
          = some th' ∧
        th'.old_state ≠ boost_thread_init.old_state ∧
        th'.policy_calls = boost_thread_init.policy_calls ++ [0, 1, 2, 3] := by
  have h := boost_thread_pass_coalesces [0, 1, 2, 3] boost_thread_init example_observed
    (by decide)
  obtain ⟨th', hth⟩ := h.2.2.1 ⟨(2, false), by decide, by decide⟩
  exact ⟨by decide, th', hth, (h.1 th' hth).1, (h.1 th' hth).2.2⟩

/-! ## C18: bit 0 is never cleared -/

/-- Setting bit 0 of a flag word, read at bits 0, 1, 2. -/
theorem flag_set_or_one_cases (s : Nat) :
    flag_set (s ||| 1) 1 ∧ (flag_set (s ||| 1) 2 ↔ flag_set s 2) ∧
      (flag_set (s ||| 1) 4 ↔ flag_set s 4) := by
  have c0 := flag_set_or_two_pow s 0 0
  have c1 := flag_set_or_two_pow s 0 1
  have c2 := flag_set_or_two_pow s 0 2
  norm_num at c0 c1 c2
  exact ⟨c0, c1, c2⟩

/-- A framebuffer blank notification, whatever its blank value, sets bit 0. -/
theorem fb_event_sets_screen_off (cfg : Config) (b : boost_drv) (blank now : Nat) :
    flag_set (fb_notifier_cb cfg b FB_EARLY_EVENT_BLANK blank now).state SCREEN_OFF := by
  by_cases hb : blank = FB_BLANK_UNBLANK
  · subst hb
    rw [fb_unblank_eq]
    exact screen_awake_sets_screen_off b
  · have hfb : fb_notifier_cb cfg b FB_EARLY_EVENT_BLANK blank now
        = wake_up (set_boost_bit b SCREEN_OFF) := by
      simp [fb_notifier_cb, hb]
    rw [hfb]
    exact screen_awake_sets_screen_off b

/-- No step of the controller clears bit 0. -/
theorem ctl_step_keeps_screen_off (cfg : Config) (b : boost_drv) (e : ctl_event)
    (h : flag_set b.state SCREEN_OFF) : flag_set (ctl_step cfg b e).state SCREEN_OFF := by
  have e0 : SCREEN_OFF = 1 := rfl
  have e0' : SCREEN_AWAKE = 1 := rfl
  have e1 : INPUT_BOOST = 2 := rfl
  have e2 : MAX_BOOST = 4 := rfl
  have h' : get_boost_state b &&& SCREEN_OFF ≠ 0 := h
  obtain ⟨⟨c01, -, -⟩, ⟨c02, -, -⟩⟩ := flag_set_andnot_cases b.state
  cases e with
  | call now ev =>
    cases ev with
    | kick =>
      have hk : __cpu_input_boost_kick cfg b now = b := by
        simp [__cpu_input_boost_kick, h']
      simp only [ctl_step, handle_event, cpu_input_boost_input_event, hk]
      exact h
    | kick_max d =>
      have hk : __cpu_input_boost_kick_max cfg b d now = b := by
        simp [__cpu_input_boost_kick_max, h']
      simp only [ctl_step, handle_event, hk]
      exact h
    | fb action blank =>
      simp only [ctl_step, handle_event]
      by_cases ha : action = FB_EARLY_EVENT_BLANK
      · subst ha
        exact fb_event_sets_screen_off cfg b blank now
      · simp only [fb_notifier_cb, ne_eq, ha, not_false_eq_true, if_true]
        exact h
  | input_expiry =>
    rcases hi : b.input_unboost with _ | f
    · simp only [ctl_step, hi]; exact h
    · simp only [ctl_step, hi, input_unboost_worker, wake_up, clear_boost_bit, e0, e1]
      rw [e0] at h
      exact c01.mpr h
  | max_expiry =>
    rcases hm : b.max_unboost with _ | g
    · simp only [ctl_step, hm]; exact h
    · simp only [ctl_step, hm, max_unboost_worker, wake_up, clear_boost_bit, e0, e2]
      rw [e0] at h
      exact c02.mpr h

theorem ctl_run_keeps_screen_off (cfg : Config) (evs : List ctl_event) :
    ∀ b : boost_drv, flag_set b.state SCREEN_OFF →
      flag_set (ctl_run cfg b evs).state SCREEN_OFF := by
  induction evs with
  | nil => intro b h; exact h
  | cons e rest ih =>
    intro b h
    exact ih _ (ctl_step_keeps_screen_off cfg b e h)

/-- C18. Bit 0 of the flag word is sticky. No step of the running controller
(kick, max-boost request, display-on, display-off, expiry of either delayed work)
clears it; a display event of either kind sets it. So in every state reached
after a display event, from any state and through any further events, bit 0 is
set, every kick and every max-boost request returns the instance unchanged, and
every `CPUFREQ_ADJUST` query gives the hardware minimum. -/
theorem screen_off_bit_sticky (cfg : Config) (b : boost_drv) (blank now0 : Nat)
    (evs : List ctl_event) :
    (∀ (b' : boost_drv) (e : ctl_event), flag_set b'.state SCREEN_OFF →
      flag_set (ctl_step cfg b' e).state SCREEN_OFF) ∧
      flag_set (ctl_run cfg (fb_notifier_cb cfg b FB_EARLY_EVENT_BLANK blank now0)
        evs).state SCREEN_OFF ∧
      (∀ now d : Nat,
        __cpu_input_boost_kick cfg
            (ctl_run cfg (fb_notifier_cb cfg b FB_EARLY_EVENT_BLANK blank now0) evs) now
          = ctl_run cfg (fb_notifier_cb cfg b FB_EARLY_EVENT_BLANK blank now0) evs ∧
        __cpu_input_boost_kick_max cfg
            (ctl_run cfg (fb_notifier_cb cfg b FB_EARLY_EVENT_BLANK blank now0) evs) d now
          = ctl_run cfg (fb_notifier_cb cfg b FB_EARLY_EVENT_BLANK blank now0) evs) ∧
      (∀ policy : cpufreq_policy,
        (cpu_notifier_cb cfg
            (ctl_run cfg (fb_notifier_cb cfg b FB_EARLY_EVENT_BLANK blank now0) evs)
            CPUFREQ_ADJUST policy).min = policy.cpuinfo.min_freq) := by
  have hset := ctl_run_keeps_screen_off cfg evs _ (fb_event_sets_screen_off cfg b blank now0)
  have hset' : get_boost_state
      (ctl_run cfg (fb_notifier_cb cfg b FB_EARLY_EVENT_BLANK blank now0) evs)
      &&& SCREEN_OFF ≠ 0 := hset
  refine ⟨fun b' e h => ctl_step_keeps_screen_off cfg b' e h, hset, ?_, ?_⟩
  · intro now d
    simp [__cpu_input_boost_kick, __cpu_input_boost_kick_max, hset']
  · intro policy
    exact cpu_notifier_cb_branch cfg _ policy .screen_off hset

/-! ## C19: a set boost flag has its expiry scheduled -/

/-- Every step of the controller keeps: `INPUT_BOOST` set only with the input
work pending, `MAX_BOOST` set only with the max work pending. -/
theorem ctl_step_keeps_timers (cfg : Config) (b : boost_drv) (e : ctl_event)
    (hin : flag_set b.state INPUT_BOOST → b.input_unboost.isSome = true)
    (hmx : flag_set b.state MAX_BOOST → b.max_unboost.isSome = true) :
    (flag_set (ctl_step cfg b e).state INPUT_BOOST →
        (ctl_step cfg b e).input_unboost.isSome = true) ∧
      (flag_set (ctl_step cfg b e).state MAX_BOOST →
        (ctl_step cfg b e).max_unboost.isSome = true) := by
  have e0 : SCREEN_OFF = 1 := rfl
  have e0' : SCREEN_AWAKE = 1 := rfl
  have e1 : INPUT_BOOST = 2 := rfl
  have e2 : MAX_BOOST = 4 := rfl
  rw [e1] at hin
  rw [e2] at hmx
  obtain ⟨⟨-, a11, a21⟩, ⟨-, a12, a22⟩⟩ := flag_set_andnot_cases b.state
  obtain ⟨⟨-, o11, o21⟩, ⟨-, o12, o22⟩⟩ := flag_set_or_cases b.state
  obtain ⟨-, p1, p2⟩ := flag_set_or_one_cases b.state
  rw [e1, e2]
  cases e with
  | call now ev =>
    cases ev with
    | kick =>
      simp only [ctl_step, handle_event, cpu_input_boost_input_event, __cpu_input_boost_kick]
      split_ifs
      · exact ⟨hin, hmx⟩
      · simp only [set_boost_bit, wake_up, mod_delayed_work, e1, Option.isSome_some,
          implies_true, true_and]
        exact fun h => hmx (o21.mp h)
    | kick_max d =>
      simp only [ctl_step, handle_event, __cpu_input_boost_kick_max]
      split_ifs
      · exact ⟨hin, hmx⟩
      · exact ⟨hin, hmx⟩
      · simp only [set_boost_bit, wake_up, mod_delayed_work, e2, Option.isSome_some,
          implies_true, and_true]
        exact fun h => hin (o12.mp h)
    | fb action blank =>
      simp only [ctl_step, handle_event]
      by_cases ha : action = FB_EARLY_EVENT_BLANK
      · subst ha
        by_cases hb : blank = FB_BLANK_UNBLANK
        · subst hb
          rw [fb_unblank_eq]
          simp only [set_boost_bit, e0']
          exact ⟨fun h => hin (p1.mp h), fun h => hmx (p2.mp h)⟩
        · have hfb : fb_notifier_cb cfg b FB_EARLY_EVENT_BLANK blank now
              = wake_up (set_boost_bit b SCREEN_OFF) := by
            simp [fb_notifier_cb, hb]
          rw [hfb]
          simp only [set_boost_bit, wake_up, e0]
          exact ⟨fun h => hin (p1.mp h), fun h => hmx (p2.mp h)⟩
      · simp only [fb_notifier_cb, ne_eq, ha, not_false_eq_true, if_true]
        exact ⟨hin, hmx⟩
  | input_expiry =>
    rcases hi : b.input_unboost with _ | f
    · have hstep : ctl_step cfg b .input_expiry = b := by simp only [ctl_step, hi]
      rw [hstep]
      exact ⟨hin, hmx⟩
    · simp only [ctl_step, hi, input_unboost_worker, wake_up, clear_boost_bit, e1]
      exact ⟨fun h => absurd h a11, fun h => hmx (a21.mp h)⟩
  | max_expiry =>
    rcases hm : b.max_unboost with _ | g
    · have hstep : ctl_step cfg b .max_expiry = b := by simp only [ctl_step, hm]
      rw [hstep]
      exact ⟨hin, hmx⟩
    · simp only [ctl_step, hm, max_unboost_worker, wake_up, clear_boost_bit, e2]
      exact ⟨fun h => hin (a12.mp h), fun h => absurd h a22⟩

theorem ctl_run_keeps_timers (cfg : Config) (evs : List ctl_event) :
    ∀ b : boost_drv,
      (flag_set b.state INPUT_BOOST → b.input_unboost.isSome = true) →
      (flag_set b.state MAX_BOOST → b.max_unboost.isSome = true) →
      (flag_set (ctl_run cfg b evs).state INPUT_BOOST →
          (ctl_run cfg b evs).input_unboost.isSome = true) ∧
        (flag_set (ctl_run cfg b evs).state MAX_BOOST →
          (ctl_run cfg b evs).max_unboost.isSome = true) := by
  induction evs with
  | nil => intro b h1 h2; exact ⟨h1, h2⟩
  | cons e rest ih =>
    intro b h1 h2
    obtain ⟨s1, s2⟩ := ctl_step_keeps_timers cfg b e h1 h2
    exact ih _ s1 s2

/-- C19. In every state reached from the initial state (no flag, deadline 0, no
work pending) through any sequence of kicks, max-boost requests, display-on
and display-off events and expiries of the two delayed works, `InputBoost` set
implies the input delayed work is pending and `MaxBoost` set implies the max
delayed work is pending. -/
theorem boost_flag_has_pending_expiry (cfg : Config) (evs : List ctl_event) :
    (flag_set (ctl_run cfg boost_drv_init evs).state INPUT_BOOST →
        (ctl_run cfg boost_drv_init evs).input_unboost.isSome = true) ∧
      (flag_set (ctl_run cfg boost_drv_init evs).state MAX_BOOST →
        (ctl_run cfg boost_drv_init evs).max_unboost.isSome = true) :=
  ctl_run_keeps_timers cfg evs boost_drv_init (fun h => absurd h (by decide))
    (fun h => absurd h (by decide))

end CpuInputBoost
